import Mathlib

/-!
# Verification of the ews-app reservation synchronization engine

Shallow embedding of the core data model and operations of the
eliona ews-app (Exchange ↔ Booking service synchronization), with
theorems settling the specification claims.

Sources embedded:
* `model/sync` — BookingGroup / BookingOccurrence / RoomBooking;
* `ews/ews.go` — GetRoomAppointments, expandRecurrence,
  getObjectIdStringFromUid, findEventUIDInMailbox request shape,
  CreateAppointment error outcomes;
* `conf/conf.go` — UpsertBooking over a relational-store model;
* `app.go` — collectResources (merge and effect ordering),
  listenForBookings dispatch, createAppointment state machine.

External effects (HTTP, SOAP, the relational store) are modelled as
explicit oracles / state passing; Go `time.Time` values are modelled
as natural numbers with `0` playing the role of the zero time.
-/

namespace EwsApp

/-! ## Data model (`model/sync`) -/

/-- `syncmodel.RoomBooking`: manifestation of one occurrence inside one
room mailbox.  The Go back-pointer `BookingOccurrence *BookingOccurrence`
is omitted: the engine only writes it on the cancellation path and never
reads it in the code under verification. -/
structure RoomBooking where
  assetID : Int
  exchangeIDInResourceMailbox : String
  deriving Repr, DecidableEq

/-- `syncmodel.BookingOccurrence`: one dated instance of a group. -/
structure BookingOccurrence where
  elionaID : Int
  instanceIndex : Int
  start : Nat
  endTime : Nat
  cancelled : Bool
  roomBookings : List RoomBooking
  deriving Repr, DecidableEq

/-- `syncmodel.BookingGroup`: a reservation as seen by the organizer. -/
structure BookingGroup where
  elionaID : Int
  exchangeUID : String
  organizerEmail : String
  occurrences : List BookingOccurrence
  deriving Repr, DecidableEq

/-! ## UID → GlobalObjectId conversion (`ews.go` getObjectIdStringFromUid)

Go's `hex.DecodeString` fails on any non-hex digit and on odd input
length; `base64.StdEncoding.EncodeToString` is the standard alphabet
with `=` padding.  Both are embedded exactly. -/

/-- Value of one hex digit, `none` for a non-hex character
(mirrors the per-character failure of `hex.DecodeString`). -/
def hexDigitValue (c : Char) : Option Nat :=
  if '0' ≤ c ∧ c ≤ '9' then some (c.toNat - '0'.toNat)
  else if 'a' ≤ c ∧ c ≤ 'f' then some (c.toNat - 'a'.toNat + 10)
  else if 'A' ≤ c ∧ c ≤ 'F' then some (c.toNat - 'A'.toNat + 10)
  else none

/-- `hex.DecodeString`: pairs of hex digits to bytes; odd length or an
invalid digit is an error (`none`). -/
def hexDecode : List Char → Option (List Nat)
  | [] => some []
  | [_] => none
  | hi :: lo :: rest => do
    let h ← hexDigitValue hi
    let l ← hexDigitValue lo
    let tail ← hexDecode rest
    pure ((16 * h + l) :: tail)

/-- The standard base64 alphabet. -/
def base64Alphabet : List Char :=
  "ABCDEFGHIJKLMNOPQRSTUVWXYZabcdefghijklmnopqrstuvwxyz0123456789+/".data

def base64Char (n : Nat) : Char := base64Alphabet.getD n 'A'

/-- `base64.StdEncoding.EncodeToString` over a byte list. -/
def base64Encode : List Nat → List Char
  | [] => []
  | [b1] => [base64Char (b1 / 4), base64Char (b1 % 4 * 16), '=', '=']
  | [b1, b2] => [base64Char (b1 / 4), base64Char (b1 % 4 * 16 + b2 / 16),
                 base64Char (b2 % 16 * 4), '=']
  | b1 :: b2 :: b3 :: rest =>
    base64Char (b1 / 4) :: base64Char (b1 % 4 * 16 + b2 / 16) ::
    base64Char (b2 % 16 * 4 + b3 / 64) :: base64Char (b3 % 64) ::
    base64Encode rest

/-- `getObjectIdStringFromUid` (ews.go): base64 of the hex-decoded UID;
fails exactly when the UID is not a valid hex string. -/
def getObjectIdStringFromUid (id : String) : Option String :=
  (hexDecode id.data).map fun buf => String.mk (base64Encode buf)

/-- The extended-property equality restriction that
`findEventUIDInMailbox` embeds into its FindItem SOAP request. -/
structure ExtendedPropertyRestriction where
  propertySetId : String
  propertyId : Nat
  propertyType : String
  constantValue : String
  deriving Repr, DecidableEq

/-- The restriction `findEventUIDInMailbox` builds for a UID: the
PropertySetId/PropertyId/PropertyType are literal in the request XML,
the constant is `getObjectIdStringFromUid uid`.  `none` models the
early `error converting UID` return. -/
def findEventUIDRestriction (uid : String) : Option ExtendedPropertyRestriction :=
  (getObjectIdStringFromUid uid).map fun globalObjectID =>
    { propertySetId := "6ED8DA90-450B-101B-98DA-00AA003F1305"
      propertyId := 3
      propertyType := "Binary"
      constantValue := globalObjectID }

/-- A UID is a valid hex string: even length, all hex digits. -/
def validHex (l : List Char) : Prop :=
  l.length % 2 = 0 ∧ ∀ c ∈ l, (hexDigitValue c).isSome

instance (l : List Char) : Decidable (validHex l) := by
  unfold validHex; infer_instance

theorem hexDecode_isSome : ∀ l : List Char, (hexDecode l).isSome ↔ validHex l
  | [] => by simp [hexDecode, validHex]
  | [c] => by simp [hexDecode, validHex, Nat.add_mod]
  | hi :: lo :: rest => by
    have ih := hexDecode_isSome rest
    constructor
    · intro h
      rcases hh : hexDigitValue hi with _ | vh <;> rcases hl : hexDigitValue lo with _ | vl <;>
        simp [hexDecode, hh, hl, Option.bind] at h
      rcases hr : hexDecode rest with _ | tl
      · simp [hexDecode, hh, hl, hr, Option.bind] at h
      · have hv : validHex rest := ih.mp (by simp [hr])
        refine ⟨?_, ?_⟩
        · have := hv.1
          simp only [List.length_cons]
          omega
        · intro c hc
          simp only [List.mem_cons] at hc
          rcases hc with hc | hc | hc
          · simp [hc, hh]
          · simp [hc, hl]
          · exact hv.2 c hc
    · rintro ⟨hlen, hall⟩
      have hh : (hexDigitValue hi).isSome := hall hi (by simp)
      have hl : (hexDigitValue lo).isSome := hall lo (by simp)
      have hr : (hexDecode rest).isSome := ih.mpr ⟨by
          simp only [List.length_cons] at hlen; omega,
        fun c hc => hall c (by simp [hc])⟩
      rcases Option.isSome_iff_exists.mp hh with ⟨vh, hh⟩
      rcases Option.isSome_iff_exists.mp hl with ⟨vl, hl⟩
      rcases Option.isSome_iff_exists.mp hr with ⟨tl, hr⟩
      simp [hexDecode, hh, hl, hr, Option.bind]

/-- C9: `getObjectIdStringFromUid` is exactly base64 of the hex-decoded
UID and fails exactly when the UID is not valid hex; the restriction
`findEventUIDInMailbox` embeds carries PropertySetId
6ED8DA90-450B-101B-98DA-00AA003F1305, PropertyId 3, type Binary, and the
converted value as the constant. -/
theorem C9_uid_globalObjectId_conversion (uid : String) :
    ((getObjectIdStringFromUid uid).isSome ↔ validHex uid.data)
    ∧ (∀ buf, hexDecode uid.data = some buf →
        getObjectIdStringFromUid uid = some (String.mk (base64Encode buf)))
    ∧ (∀ r, findEventUIDRestriction uid = some r →
        r.propertySetId = "6ED8DA90-450B-101B-98DA-00AA003F1305"
        ∧ r.propertyId = 3 ∧ r.propertyType = "Binary"
        ∧ some r.constantValue
            = (hexDecode uid.data).map fun buf => String.mk (base64Encode buf))
    ∧ ((findEventUIDRestriction uid).isSome ↔ validHex uid.data) := by
  refine ⟨?_, ?_, ?_, ?_⟩
  · rw [← hexDecode_isSome]
    simp [getObjectIdStringFromUid]
  · intro buf h
    simp [getObjectIdStringFromUid, h]
  · intro r h
    simp only [findEventUIDRestriction, getObjectIdStringFromUid, Option.map_map] at h ⊢
    rcases hd : hexDecode uid.data with _ | buf
    · simp [hd] at h
    · simp [hd] at h ⊢
      simp [← h]
  · rw [← hexDecode_isSome]
    simp [findEventUIDRestriction, getObjectIdStringFromUid]

/-- Witness for C9 at the concrete UID "0a1b" (bytes 0x0a 0x1b,
base64 "Chs="). -/
theorem C9_uid_globalObjectId_conversion_witness :
    findEventUIDRestriction "0a1b"
      = some { propertySetId := "6ED8DA90-450B-101B-98DA-00AA003F1305"
               propertyId := 3
               propertyType := "Binary"
               constantValue := "Chs=" }
    ∧ (getObjectIdStringFromUid "0a1b").isSome := by
  have h := C9_uid_globalObjectId_conversion "0a1b"
  refine ⟨by decide, h.1.mpr (by decide)⟩

/-! ## Cross-mailbox merge of groups sharing an ExchangeUID
(`app.go` collectResources, accumulation into the `toBook` map)

The Go loop iterates the positions of the stored group's occurrence
list and reads the incoming group's occurrence list at the same
positions:

    for i, existingOccurrence := range existing.Occurrences {
        existing.Occurrences[i].RoomBookings =
            append(existingOccurrence.RoomBookings, a.Occurrences[i].RoomBookings...)
        toBook[a.ExchangeUID] = existing
    }

`none` models the index-out-of-range panic when the incoming group has
fewer occurrences than the stored one. -/

def mergeOccurrenceLists :
    List BookingOccurrence → List BookingOccurrence → Option (List BookingOccurrence)
  | [], _ => some []
  | _ :: _, [] => none
  | e :: es, a :: rest =>
    (mergeOccurrenceLists es rest).map
      fun tl => { e with roomBookings := e.roomBookings ++ a.roomBookings } :: tl

/-- Merging the incoming group `a` into the stored group `existing`
that shares its ExchangeUID. -/
def mergeGroups (existing a : BookingGroup) : Option BookingGroup :=
  (mergeOccurrenceLists existing.occurrences a.occurrences).map
    fun occs => { existing with occurrences := occs }

/-- One accumulation step of collectResources: insert the group keyed
by its ExchangeUID, or merge it into an already-stored group. -/
def addToBook (toBook : List (String × BookingGroup)) (a : BookingGroup) :
    Option (List (String × BookingGroup)) :=
  match toBook.lookup a.exchangeUID with
  | none => some (toBook ++ [(a.exchangeUID, a)])
  | some existing =>
    (mergeGroups existing a).map
      fun merged => toBook.map fun p =>
        if p.1 = a.exchangeUID then (p.1, merged) else p

/-- The merge relation the spec describes (claim C2): occurrences are
paired by equal `instanceIndex` and their RoomBookings concatenated.
Stated from the spec's words, to be compared with `mergeGroups`. -/
def specMergedByInstanceIndex (existing a merged : BookingGroup) : Prop :=
  ∀ occ ∈ merged.occurrences, ∀ eo ∈ existing.occurrences,
    occ.instanceIndex = eo.instanceIndex →
      ∀ ao ∈ a.occurrences, ao.instanceIndex = eo.instanceIndex →
        occ.roomBookings = eo.roomBookings ++ ao.roomBookings

instance (existing a merged : BookingGroup) :
    Decidable (specMergedByInstanceIndex existing a merged) := by
  unfold specMergedByInstanceIndex; infer_instance

/-- Occurrence shorthand used by the merge counterexamples. -/
def occIdx (idx : Int) (rb : String) : BookingOccurrence :=
  { elionaID := 0, instanceIndex := idx, start := 10, endTime := 20,
    cancelled := false, roomBookings := [⟨1, rb⟩] }

/-- C2 counterexample: two groups with UID "u" whose occurrence lists
enumerate instance indices in different orders.  The code pairs the
stored occurrence of index 1 (position 0) with the incoming occurrence
of index 2 (position 0), so the result is not the spec's
merge-by-instanceIndex. -/
theorem C2_counterexample :
    mergeGroups
        { elionaID := 0, exchangeUID := "u", organizerEmail := "o@x",
          occurrences := [occIdx 1 "r1", occIdx 2 "r2"] }
        { elionaID := 0, exchangeUID := "u", organizerEmail := "o@x",
          occurrences := [occIdx 2 "s2", occIdx 1 "s1"] }
      = some { elionaID := 0, exchangeUID := "u", organizerEmail := "o@x",
               occurrences :=
                 [{ occIdx 1 "r1" with roomBookings := [⟨1, "r1"⟩, ⟨1, "s2"⟩] },
                  { occIdx 2 "r2" with roomBookings := [⟨1, "r2"⟩, ⟨1, "s1"⟩] }] }
    ∧ ¬ specMergedByInstanceIndex
        { elionaID := 0, exchangeUID := "u", organizerEmail := "o@x",
          occurrences := [occIdx 1 "r1", occIdx 2 "r2"] }
        { elionaID := 0, exchangeUID := "u", organizerEmail := "o@x",
          occurrences := [occIdx 2 "s2", occIdx 1 "s1"] }
        { elionaID := 0, exchangeUID := "u", organizerEmail := "o@x",
          occurrences :=
            [{ occIdx 1 "r1" with roomBookings := [⟨1, "r1"⟩, ⟨1, "s2"⟩] },
             { occIdx 2 "r2" with roomBookings := [⟨1, "r2"⟩, ⟨1, "s1"⟩] }] } := by
  constructor
  · decide
  · decide

/-- C2 as amended: the merge is positional.  When the incoming group
has at least as many occurrences as the stored one, the merge succeeds,
keeps the stored group's identity fields and occurrence count, and the
k-th merged occurrence is the k-th stored occurrence with the k-th
incoming occurrence's RoomBookings appended (regardless of
instanceIndex values). -/
theorem C2_merge_is_positional (existing a : BookingGroup)
    (h : existing.occurrences.length ≤ a.occurrences.length) :
    ∃ merged, mergeGroups existing a = some merged
      ∧ merged.exchangeUID = existing.exchangeUID
      ∧ merged.elionaID = existing.elionaID
      ∧ merged.organizerEmail = existing.organizerEmail
      ∧ merged.occurrences.length = existing.occurrences.length
      ∧ ∀ k e i, existing.occurrences.get? k = some e →
          a.occurrences.get? k = some i →
          merged.occurrences.get? k
            = some { e with roomBookings := e.roomBookings ++ i.roomBookings } := by
  have main : ∀ (es is_ : List BookingOccurrence), es.length ≤ is_.length →
      ∃ ms, mergeOccurrenceLists es is_ = some ms
        ∧ ms.length = es.length
        ∧ ∀ k e i, es.get? k = some e → is_.get? k = some i →
            ms.get? k = some { e with roomBookings := e.roomBookings ++ i.roomBookings } := by
    intro es
    induction es with
    | nil =>
      intro is_ _
      exact ⟨[], rfl, rfl, fun k e i he _ => by simp at he⟩
    | cons e es ih =>
      intro is_ hlen
      match is_ with
      | [] => simp at hlen
      | i :: is_ =>
        simp only [List.length_cons, Nat.add_le_add_iff_right] at hlen
        obtain ⟨ms, hms, hmslen, hmk⟩ := ih is_ hlen
        refine ⟨{ e with roomBookings := e.roomBookings ++ i.roomBookings } :: ms,
          by simp [mergeOccurrenceLists, hms], by simp [hmslen], ?_⟩
        intro k e' i' he' hi'
        match k with
        | 0 =>
          simp only [List.get?_cons_zero, Option.some.injEq] at he' hi'
          simp [← he', ← hi']
        | k + 1 =>
          simp only [List.get?_cons_succ] at he' hi' ⊢
          exact hmk k e' i' he' hi'
  obtain ⟨ms, hms, hmslen, hmk⟩ := main existing.occurrences a.occurrences h
  exact ⟨{ existing with occurrences := ms }, by simp [mergeGroups, hms],
    rfl, rfl, rfl, hmslen, hmk⟩

/-- Witness for the amended C2 on concrete two-occurrence groups. -/
theorem C2_merge_is_positional_witness :
    ([occIdx 1 "r1", occIdx 2 "r2"].length ≤ [occIdx 2 "s2", occIdx 1 "s1"].length)
    ∧ ∃ merged, mergeGroups
        { elionaID := 0, exchangeUID := "u", organizerEmail := "o@x",
          occurrences := [occIdx 1 "r1", occIdx 2 "r2"] }
        { elionaID := 0, exchangeUID := "u", organizerEmail := "o@x",
          occurrences := [occIdx 2 "s2", occIdx 1 "s1"] } = some merged
      ∧ merged.exchangeUID = "u"
      ∧ merged.elionaID = 0
      ∧ merged.organizerEmail = "o@x"
      ∧ merged.occurrences.length = [occIdx 1 "r1", occIdx 2 "r2"].length
      ∧ ∀ k e i, [occIdx 1 "r1", occIdx 2 "r2"].get? k = some e →
          [occIdx 2 "s2", occIdx 1 "s1"].get? k = some i →
          merged.occurrences.get? k
            = some { e with roomBookings := e.roomBookings ++ i.roomBookings } :=
  ⟨by decide, C2_merge_is_positional _ _ (by decide)⟩

/-- C10 counterexample: a stored group with two occurrences merged with
an incoming group (same UID) reporting a single occurrence makes the
loop read past the end of the incoming occurrence list (a Go
index-out-of-range panic, modelled as `none`). -/
theorem C10_counterexample :
    mergeGroups
      { elionaID := 7, exchangeUID := "v", organizerEmail := "p@x",
        occurrences := [occIdx 1 "a1", occIdx 2 "a2"] }
      { elionaID := 7, exchangeUID := "v", organizerEmail := "p@x",
        occurrences := [occIdx 1 "b1"] } = none := by
  decide

/-- C10 as amended: the positional access of the merge loop stays in
bounds exactly when the stored group has at most as many occurrences as
the incoming group; when the stored group has more, the merge indexes
past the end of the incoming list (panic, modelled as `none`). -/
theorem C10_merge_in_bounds_iff (existing a : BookingGroup) :
    (mergeGroups existing a).isSome
      ↔ existing.occurrences.length ≤ a.occurrences.length := by
  have main : ∀ (es is_ : List BookingOccurrence),
      (mergeOccurrenceLists es is_).isSome ↔ es.length ≤ is_.length := by
    intro es
    induction es with
    | nil => intro is_; simp [mergeOccurrenceLists]
    | cons e es ih =>
      intro is_
      match is_ with
      | [] => simp [mergeOccurrenceLists]
      | i :: is_ =>
        simp only [mergeOccurrenceLists, Option.isSome_map', List.length_cons,
          Nat.add_le_add_iff_right]
        exact ih is_
  simp only [mergeGroups, Option.isSome_map']
  exact main existing.occurrences a.occurrences

/-! ## Identity store and UpsertBooking (`conf/conf.go`)

The three tables are modelled as row lists with a fresh-id counter.
Each sqlboiler `UpsertG`/`ReloadG` call is an individual autocommit
statement against the global connection (there is no transaction in
`UpsertBooking`); a statement-number oracle `failAt` injects DB errors.
The row an `ON CONFLICT` clause updates is identified by the conflict
key (a unique constraint in 000200.sql), and only the whitelisted
columns are updated, exactly as in the source. -/

structure DBGroupRow where
  id : Nat
  exchangeUID : String
  organizerMailbox : String
  elionaGroupID : Int
  deriving Repr, DecidableEq

structure DBOccurrenceRow where
  id : Nat
  bookingGroupID : Nat
  exchangeInstanceIndex : Int
  elionaBookingID : Int
  deriving Repr, DecidableEq

structure DBRoomBookingRow where
  id : Nat
  bookingOccurrenceID : Nat
  exchangeID : String
  deriving Repr, DecidableEq

structure DBState where
  groups : List DBGroupRow
  occurrences : List DBOccurrenceRow
  roomBookings : List DBRoomBookingRow
  nextID : Nat
  deriving Repr, DecidableEq

/-- Group upsert: conflict on `exchange_uid`, update whitelist
`eliona_group_id`.  Returns the id of the upserted row. -/
def upsertGroupRow (s : DBState) (uid organizer : String) (eid : Int) :
    DBState × Nat :=
  match s.groups.find? (fun g => g.exchangeUID = uid) with
  | some g =>
    ({ s with groups := s.groups.map fun r =>
        if r.exchangeUID = uid then { r with elionaGroupID := eid } else r }, g.id)
  | none =>
    ({ s with
        groups := s.groups
          ++ [{ id := s.nextID, exchangeUID := uid,
                organizerMailbox := organizer, elionaGroupID := eid }],
        nextID := s.nextID + 1 }, s.nextID)

/-- Occurrence upsert: conflict on `(booking_group_id,
exchange_instance_index)`, update whitelist `eliona_booking_id`. -/
def upsertOccurrenceRow (s : DBState) (gid : Nat) (idx : Int) (eid : Int) :
    DBState × Nat :=
  match s.occurrences.find? (fun r => r.bookingGroupID = gid ∧ r.exchangeInstanceIndex = idx) with
  | some r =>
    ({ s with occurrences := s.occurrences.map fun q =>
        if q.bookingGroupID = gid ∧ q.exchangeInstanceIndex = idx
        then { q with elionaBookingID := eid } else q }, r.id)
  | none =>
    ({ s with
        occurrences := s.occurrences
          ++ [{ id := s.nextID, bookingGroupID := gid,
                exchangeInstanceIndex := idx, elionaBookingID := eid }],
        nextID := s.nextID + 1 }, s.nextID)

/-- Room-booking upsert: conflict on `exchange_id`, "update" whitelist
`exchange_id` (the source's hacky ON CONFLICT DO NOTHING). -/
def upsertRoomBookingRow (s : DBState) (occID : Nat) (eid : String) : DBState :=
  match s.roomBookings.find? (fun r => r.exchangeID = eid) with
  | some _ =>
    { s with roomBookings := s.roomBookings.map fun q =>
        if q.exchangeID = eid then { q with exchangeID := eid } else q }
  | none =>
    { s with
        roomBookings := s.roomBookings
          ++ [{ id := s.nextID, bookingOccurrenceID := occID, exchangeID := eid }],
        nextID := s.nextID + 1 }

/-- Room-booking loop of `UpsertBooking`.  `failAt` injects a DB error
at the given statement counter value; on error the loop stops with the
state reached so far (no rollback: there is no transaction). -/
def upsertRoomBookingsLoop (failAt : Nat → Bool) (occID : Nat) :
    List RoomBooking → DBState → Nat → DBState × Nat × Option String
  | [], s, n => (s, n, none)
  | rb :: rest, s, n =>
    if failAt n then (s, n + 1, some "upserting room booking")
    else
      upsertRoomBookingsLoop failAt occID rest
        (upsertRoomBookingRow s occID rb.exchangeIDInResourceMailbox) (n + 1)

/-- Occurrence loop of `UpsertBooking`: upsert the occurrence, reload
it, then upsert its room bookings. -/
def upsertOccurrencesLoop (failAt : Nat → Bool) (gid : Nat) :
    List BookingOccurrence → DBState → Nat → DBState × Nat × Option String
  | [], s, n => (s, n, none)
  | occ :: rest, s, n =>
    if failAt n then (s, n + 1, some "upserting occurrence")
    else
      let p := upsertOccurrenceRow s gid occ.instanceIndex occ.elionaID
      if failAt (n + 1) then (p.1, n + 2, some "reloading occurrence")
      else
        match upsertRoomBookingsLoop failAt p.2 occ.roomBookings p.1 (n + 2) with
        | (s2, n2, some e) => (s2, n2, some e)
        | (s2, n2, none) => upsertOccurrencesLoop failAt gid rest s2 n2

/-- `conf.UpsertBooking`: group upsert, group reload, then the
occurrence loop.  Returns the state reached and the error, if any. -/
def UpsertBooking (failAt : Nat → Bool) (modelGroup : BookingGroup)
    (s : DBState) : DBState × Option String :=
  if failAt 0 then (s, some "upserting group")
  else
    let p := upsertGroupRow s modelGroup.exchangeUID modelGroup.organizerEmail
      modelGroup.elionaID
    if failAt 1 then (p.1, some "reloading group")
    else
      let r := upsertOccurrencesLoop failAt p.2 modelGroup.occurrences p.1 2
      (r.1, r.2.2)

/-- The all-statements-succeed oracle. -/
def noFail : Nat → Bool := fun _ => false

def hasOccurrenceKey (s : DBState) (gid : Nat) (idx : Int) : Prop :=
  ∃ r ∈ s.occurrences, r.bookingGroupID = gid ∧ r.exchangeInstanceIndex = idx

def hasRoomBookingID (s : DBState) (eid : String) : Prop :=
  ∃ r ∈ s.roomBookings, r.exchangeID = eid

instance (s : DBState) (gid : Nat) (idx : Int) :
    Decidable (hasOccurrenceKey s gid idx) := by
  unfold hasOccurrenceKey; infer_instance

instance (s : DBState) (eid : String) : Decidable (hasRoomBookingID s eid) := by
  unfold hasRoomBookingID; infer_instance

/-- One concrete occurrence with one room booking; C3 test data. -/
def occX : BookingOccurrence :=
  { elionaID := 9, instanceIndex := 1, start := 10, endTime := 20,
    cancelled := false, roomBookings := [⟨1, "X"⟩] }

/-- One concrete group holding `occX`; C3 test data. -/
def groupU : BookingGroup :=
  { elionaID := 5, exchangeUID := "u", organizerEmail := "o@x",
    occurrences := [occX] }

/-- The empty store. -/
def emptyDB : DBState :=
  { groups := [], occurrences := [], roomBookings := [], nextID := 0 }

/-- A store already holding a room booking with exchange id "X". -/
def dbWithX : DBState :=
  { groups := [], occurrences := [], roomBookings := [⟨0, 7, "X"⟩], nextID := 1 }

/-- C3 counterexample: with a DB error injected at statement 2 (the
first occurrence upsert), `UpsertBooking` on an empty store returns an
error, yet the group row written by statement 0 remains persisted — the
operation is not atomic (there is no transaction in the source). -/
theorem C3_counterexample :
    (UpsertBooking (fun n => n == 2) groupU emptyDB).2.isSome
    ∧ (UpsertBooking (fun n => n == 2) groupU emptyDB).1 ≠ emptyDB := by
  constructor
  · decide
  · decide

theorem upsertRoomBookingRow_groups (s : DBState) (occID : Nat) (eid : String) :
    (upsertRoomBookingRow s occID eid).groups = s.groups := by
  unfold upsertRoomBookingRow
  cases s.roomBookings.find? (fun r => r.exchangeID = eid) <;> rfl

theorem upsertRoomBookingRow_occurrences (s : DBState) (occID : Nat) (eid : String) :
    (upsertRoomBookingRow s occID eid).occurrences = s.occurrences := by
  unfold upsertRoomBookingRow
  cases s.roomBookings.find? (fun r => r.exchangeID = eid) <;> rfl

theorem upsertRoomBookingRow_hasRB (s : DBState) (occID : Nat) (eid : String) :
    hasRoomBookingID (upsertRoomBookingRow s occID eid) eid := by
  unfold upsertRoomBookingRow
  cases h : s.roomBookings.find? (fun r => r.exchangeID = eid) with
  | none =>
    exact ⟨{ id := s.nextID, bookingOccurrenceID := occID, exchangeID := eid },
      by simp, rfl⟩
  | some r =>
    have hmem := List.mem_of_find?_eq_some h
    have hpr : r.exchangeID = eid := by
      have := List.find?_some h
      simpa using this
    refine ⟨{ r with exchangeID := eid }, ?_, rfl⟩
    exact List.mem_map.mpr ⟨r, hmem, by simp [hpr]⟩

theorem upsertRoomBookingRow_mono (s : DBState) (occID : Nat) (eid e' : String)
    (h : hasRoomBookingID s e') :
    hasRoomBookingID (upsertRoomBookingRow s occID eid) e' := by
  obtain ⟨q, hq, hqe⟩ := h
  unfold upsertRoomBookingRow
  cases s.roomBookings.find? (fun r => r.exchangeID = eid) with
  | none => exact ⟨q, by simp [hq], hqe⟩
  | some r =>
    by_cases hcase : q.exchangeID = eid
    · exact ⟨{ q with exchangeID := eid },
        List.mem_map.mpr ⟨q, hq, by simp [hcase]⟩, by rw [← hqe, hcase]⟩
    · exact ⟨q, List.mem_map.mpr ⟨q, hq, by simp [hcase]⟩, hqe⟩

theorem upsertOccurrenceRow_groups (s : DBState) (gid : Nat) (idx eid : Int) :
    (upsertOccurrenceRow s gid idx eid).1.groups = s.groups := by
  unfold upsertOccurrenceRow
  cases s.occurrences.find?
    (fun r => r.bookingGroupID = gid ∧ r.exchangeInstanceIndex = idx) <;> rfl

theorem upsertOccurrenceRow_roomBookings (s : DBState) (gid : Nat) (idx eid : Int) :
    (upsertOccurrenceRow s gid idx eid).1.roomBookings = s.roomBookings := by
  unfold upsertOccurrenceRow
  cases s.occurrences.find?
    (fun r => r.bookingGroupID = gid ∧ r.exchangeInstanceIndex = idx) <;> rfl

theorem upsertOccurrenceRow_hasKey (s : DBState) (gid : Nat) (idx eid : Int) :
    hasOccurrenceKey (upsertOccurrenceRow s gid idx eid).1 gid idx := by
  unfold upsertOccurrenceRow
  cases h : s.occurrences.find?
      (fun r => r.bookingGroupID = gid ∧ r.exchangeInstanceIndex = idx) with
  | none =>
    exact ⟨{ id := s.nextID, bookingGroupID := gid,
             exchangeInstanceIndex := idx, elionaBookingID := eid },
      by simp, rfl, rfl⟩
  | some r =>
    have hmem := List.mem_of_find?_eq_some h
    have hpr : r.bookingGroupID = gid ∧ r.exchangeInstanceIndex = idx := by
      have := List.find?_some h
      simpa using this
    refine ⟨{ r with elionaBookingID := eid }, ?_, hpr.1, hpr.2⟩
    exact List.mem_map.mpr ⟨r, hmem, by simp [hpr.1, hpr.2]⟩

theorem upsertOccurrenceRow_mono (s : DBState) (gid : Nat) (idx eid : Int)
    (g' : Nat) (i' : Int) (h : hasOccurrenceKey s g' i') :
    hasOccurrenceKey (upsertOccurrenceRow s gid idx eid).1 g' i' := by
  obtain ⟨q, hq, hq1, hq2⟩ := h
  unfold upsertOccurrenceRow
  cases s.occurrences.find?
      (fun r => r.bookingGroupID = gid ∧ r.exchangeInstanceIndex = idx) with
  | none => exact ⟨q, by simp [hq], hq1, hq2⟩
  | some r =>
    by_cases hcase : q.bookingGroupID = gid ∧ q.exchangeInstanceIndex = idx
    · exact ⟨{ q with elionaBookingID := eid },
        List.mem_map.mpr ⟨q, hq, by simp [hcase.1, hcase.2]⟩, hq1, hq2⟩
    · exact ⟨q, List.mem_map.mpr ⟨q, hq, by simp [hcase]⟩, hq1, hq2⟩

theorem upsertRoomBookingsLoop_noFail (occID : Nat) :
    ∀ (rbs : List RoomBooking) (s : DBState) (n : Nat),
      ∃ s' n', upsertRoomBookingsLoop noFail occID rbs s n = (s', n', none)
        ∧ s'.groups = s.groups
        ∧ s'.occurrences = s.occurrences
        ∧ (∀ e, hasRoomBookingID s e → hasRoomBookingID s' e)
        ∧ ∀ rb ∈ rbs, hasRoomBookingID s' rb.exchangeIDInResourceMailbox
  | [], s, n => ⟨s, n, rfl, rfl, rfl, fun _ h => h, by simp⟩
  | rb :: rest, s, n => by
    obtain ⟨s', n', heq, hg, ho, hmono, hall⟩ :=
      upsertRoomBookingsLoop_noFail occID rest
        (upsertRoomBookingRow s occID rb.exchangeIDInResourceMailbox) (n + 1)
    refine ⟨s', n', by simpa [upsertRoomBookingsLoop, noFail] using heq,
      by rw [hg, upsertRoomBookingRow_groups],
      by rw [ho, upsertRoomBookingRow_occurrences], ?_, ?_⟩
    · intro e he
      exact hmono e (upsertRoomBookingRow_mono s occID _ e he)
    · intro rb' hrb'
      rcases List.mem_cons.mp hrb' with h | h
      · subst h
        exact hmono _ (upsertRoomBookingRow_hasRB s occID _)
      · exact hall rb' h

theorem upsertOccurrencesLoop_noFail (gid : Nat) :
    ∀ (occs : List BookingOccurrence) (s : DBState) (n : Nat),
      ∃ s' n', upsertOccurrencesLoop noFail gid occs s n = (s', n', none)
        ∧ s'.groups = s.groups
        ∧ (∀ e, hasRoomBookingID s e → hasRoomBookingID s' e)
        ∧ (∀ g' i', hasOccurrenceKey s g' i' → hasOccurrenceKey s' g' i')
        ∧ (∀ occ ∈ occs, hasOccurrenceKey s' gid occ.instanceIndex)
        ∧ ∀ occ ∈ occs, ∀ rb ∈ occ.roomBookings,
            hasRoomBookingID s' rb.exchangeIDInResourceMailbox
  | [], s, n => ⟨s, n, rfl, rfl, fun _ h => h, fun _ _ h => h, by simp, by simp⟩
  | occ :: rest, s, n => by
    obtain ⟨s1, n1, heq1, hg1, ho1, hmono1, hall1⟩ :=
      upsertRoomBookingsLoop_noFail (upsertOccurrenceRow s gid occ.instanceIndex occ.elionaID).2
        occ.roomBookings (upsertOccurrenceRow s gid occ.instanceIndex occ.elionaID).1 (n + 2)
    obtain ⟨s2, n2, heq2, hg2, hrb2, hocc2, hnew2, hrbs2⟩ :=
      upsertOccurrencesLoop_noFail gid rest s1 n1
    refine ⟨s2, n2, ?_, ?_, ?_, ?_, ?_, ?_⟩
    · simp only [upsertOccurrencesLoop, noFail, Bool.false_eq_true, if_false, heq1]
      exact heq2
    · rw [hg2, hg1, upsertOccurrenceRow_groups]
    · intro e he
      refine hrb2 e (hmono1 e ?_)
      rw [hasRoomBookingID, upsertOccurrenceRow_roomBookings]
      exact he
    · intro g' i' hk
      refine hocc2 g' i' ?_
      have : hasOccurrenceKey
          (upsertOccurrenceRow s gid occ.instanceIndex occ.elionaID).1 g' i' :=
        upsertOccurrenceRow_mono s gid occ.instanceIndex occ.elionaID g' i' hk
      rwa [hasOccurrenceKey, ← ho1] at this
    · intro o ho
      rcases List.mem_cons.mp ho with h | h
      · subst h
        refine hocc2 gid o.instanceIndex ?_
        have := upsertOccurrenceRow_hasKey s gid o.instanceIndex o.elionaID
        rwa [hasOccurrenceKey, ← ho1] at this
      · exact hnew2 o h
    · intro o ho rb hrb
      rcases List.mem_cons.mp ho with h | h
      · subst h
        exact hrb2 _ (hall1 rb hrb)
      · exact hrbs2 o h rb hrb

/-- C3 as amended: `UpsertBooking` upserts the group keyed by
ExchangeUID, each occurrence keyed by (group id, instanceIndex) and
each room booking keyed by its resource-mailbox event id, treating
conflicts on that event id as do-nothing — but it is NOT atomic: the
rows are written by individual autocommit statements with no enclosing
transaction, so a failing statement leaves the earlier writes
persisted (see the counterexample). -/
theorem C3_upsert_keys_not_atomic (g : BookingGroup) (s : DBState) :
    ((UpsertBooking noFail g s).2 = none
      ∧ (∃ row ∈ (UpsertBooking noFail g s).1.groups,
          row.exchangeUID = g.exchangeUID ∧ row.elionaGroupID = g.elionaID)
      ∧ (∃ gid, ∀ occ ∈ g.occurrences,
          hasOccurrenceKey (UpsertBooking noFail g s).1 gid occ.instanceIndex)
      ∧ ∀ occ ∈ g.occurrences, ∀ rb ∈ occ.roomBookings,
          hasRoomBookingID (UpsertBooking noFail g s).1
            rb.exchangeIDInResourceMailbox)
    ∧ (∀ occID eid, hasRoomBookingID s eid →
        (upsertRoomBookingRow s occID eid).roomBookings.length
          = s.roomBookings.length) := by
  constructor
  · have hgrow : ∃ row ∈ (upsertGroupRow s g.exchangeUID g.organizerEmail g.elionaID).1.groups,
        row.exchangeUID = g.exchangeUID ∧ row.elionaGroupID = g.elionaID := by
      unfold upsertGroupRow
      cases h : s.groups.find? (fun r => r.exchangeUID = g.exchangeUID) with
      | none =>
        exact ⟨{ id := s.nextID, exchangeUID := g.exchangeUID,
                 organizerMailbox := g.organizerEmail,
                 elionaGroupID := g.elionaID },
          by simp, rfl, rfl⟩
      | some r =>
        have hmem := List.mem_of_find?_eq_some h
        have hpr : r.exchangeUID = g.exchangeUID := by
          have := List.find?_some h
          simpa using this
        exact ⟨{ r with elionaGroupID := g.elionaID },
          List.mem_map.mpr ⟨r, hmem, by simp [hpr]⟩, hpr, rfl⟩
    obtain ⟨s', n', heq, hg', hrb', hocc', hnew', hrbs'⟩ :=
      upsertOccurrencesLoop_noFail
        (upsertGroupRow s g.exchangeUID g.organizerEmail g.elionaID).2
        g.occurrences
        (upsertGroupRow s g.exchangeUID g.organizerEmail g.elionaID).1 2
    have hres : UpsertBooking noFail g s = (s', none) := by
      simp only [UpsertBooking, noFail, Bool.false_eq_true, if_false, heq]
    refine ⟨by simp [hres], ?_, ?_, ?_⟩
    · obtain ⟨row, hrow, h1, h2⟩ := hgrow
      exact ⟨row, by rw [hres]; simpa [hg'] using hrow, h1, h2⟩
    · exact ⟨_, fun occ hocc => by rw [hres]; exact hnew' occ hocc⟩
    · intro occ hocc rb hrb
      rw [hres]
      exact hrbs' occ hocc rb hrb
  · intro occID eid he
    obtain ⟨q, hq, hqe⟩ := he
    have hfind : (s.roomBookings.find? (fun r => r.exchangeID = eid)).isSome := by
      rw [List.find?_isSome]
      exact ⟨q, hq, by simp [hqe]⟩
    unfold upsertRoomBookingRow
    rcases Option.isSome_iff_exists.mp hfind with ⟨r, hr⟩
    simp [hr]

/-- Witness for the amended C3: a fresh group with one occurrence and
one room booking upserted into a store already holding that room
booking's exchange id. -/
theorem C3_upsert_keys_not_atomic_witness :
    (∃ gid, ∀ occ ∈ groupU.occurrences,
        hasOccurrenceKey (UpsertBooking noFail groupU dbWithX).1
          gid occ.instanceIndex)
    ∧ (upsertRoomBookingRow dbWithX 3 "X").roomBookings.length = 1 := by
  have h := C3_upsert_keys_not_atomic groupU dbWithX
  exact ⟨h.1.2.2.1, h.2 3 "X" ⟨⟨0, 7, "X"⟩, by simp [dbWithX], rfl⟩⟩

/-! ## Booking-driven writer dispatch (`app.go` listenForBookings)

The loop body classifies each group received from the WebSocket
stream:

    if len(group.Occurrences) == 1 && group.Occurrences[0].Cancelled {
        cancelInEWS(group, config); continue
    }
    for _, occurrence := range group.Occurrences {
        if occurrence.Cancelled {
            cancelOccurrenceInEWS(group, occurrence, config)
            continue outer
        }
    }
    bookInEWS(group, config)
-/

inductive ListenerAction
  | cancelGroup (g : BookingGroup)
  | cancelOccurrence (g : BookingGroup) (occ : BookingOccurrence)
  | bookGroup (g : BookingGroup)
  deriving Repr, DecidableEq

/-- The inner scan of the loop: the first cancelled occurrence (if
any) triggers one `cancelOccurrenceInEWS` and `continue outer`. -/
def dispatchScan (g : BookingGroup) : ListenerAction :=
  match g.occurrences.find? (fun o => o.cancelled) with
  | some occ => ListenerAction.cancelOccurrence g occ
  | none => ListenerAction.bookGroup g

/-- Classification of one received group by `listenForBookings`. -/
def dispatchBooking (g : BookingGroup) : ListenerAction :=
  match g.occurrences with
  | [occ] =>
    if occ.cancelled then ListenerAction.cancelGroup g else dispatchScan g
  | _ => dispatchScan g

/-- One action is produced per received group. -/
def listenForBookings (stream : List BookingGroup) : List ListenerAction :=
  stream.map dispatchBooking

/-- Count of cancelOccurrence calls issued for group `g`. -/
def cancelOccurrenceCalls (acts : List ListenerAction) (g : BookingGroup) : Nat :=
  acts.countP fun a =>
    match a with
    | ListenerAction.cancelOccurrence g' _ => g' = g
    | _ => false

/-- Cancelled occurrence shorthand for the C5 counterexample. -/
def cOcc (idx : Int) (rb : String) : BookingOccurrence :=
  { elionaID := 0, instanceIndex := idx, start := 30, endTime := 40,
    cancelled := true, roomBookings := [⟨2, rb⟩] }

/-- The C5 counterexample group: two occurrences, both cancelled. -/
def gBothCancelled : BookingGroup :=
  { elionaID := 3, exchangeUID := "w", organizerEmail := "q@x",
    occurrences := [cOcc 1 "c1", cOcc 2 "c2"] }

/-- C5 counterexample: a group with two cancelled occurrences gets
exactly one cancelOccurrence call (for the first), not one per
cancelled occurrence as the claim states. -/
theorem C5_counterexample :
    cancelOccurrenceCalls (listenForBookings [gBothCancelled]) gBothCancelled = 1
    ∧ (gBothCancelled.occurrences.countP fun o => o.cancelled) = 2 := by
  constructor
  · decide
  · decide

/-- C5 as amended: for a multi-occurrence group with a cancelled
occurrence, the writer issues exactly one cancelOccurrence call,
targeting the first cancelled occurrence in list order; the remaining
cancelled occurrences of that group message are not processed. -/
theorem C5_first_cancelled_occurrence_only (g : BookingGroup)
    (h1 : 1 < g.occurrences.length) (occ : BookingOccurrence)
    (h2 : g.occurrences.find? (fun o => o.cancelled) = some occ) :
    dispatchBooking g = ListenerAction.cancelOccurrence g occ
    ∧ occ.cancelled = true
    ∧ cancelOccurrenceCalls (listenForBookings [g]) g = 1
    ∧ ∀ o, o ≠ occ →
        dispatchBooking g ≠ ListenerAction.cancelOccurrence g o := by
  have hdisp : dispatchBooking g = ListenerAction.cancelOccurrence g occ := by
    match hocc : g.occurrences with
    | [] => rw [hocc] at h1; simp at h1
    | [a] => rw [hocc] at h1; simp at h1
    | a :: b :: rest =>
      rw [hocc] at h2
      simp only [dispatchBooking, dispatchScan, hocc, h2]
  refine ⟨hdisp, by simpa using List.find?_some h2, ?_, ?_⟩
  · simp [cancelOccurrenceCalls, listenForBookings, hdisp, List.countP,
      List.countP.go]
  · intro o hne heq
    rw [hdisp] at heq
    exact hne (by injection heq with _ h; exact h.symm)

/-- A three-occurrence group: first live, then two cancelled. -/
def gMixed : BookingGroup :=
  { elionaID := 4, exchangeUID := "m", organizerEmail := "s@x",
    occurrences :=
      [{ elionaID := 0, instanceIndex := 1, start := 30, endTime := 40,
         cancelled := false, roomBookings := [⟨2, "m1"⟩] },
       cOcc 2 "m2", cOcc 3 "m3"] }

/-- Witness for the amended C5 on `gMixed`: the first cancelled
occurrence (instance index 2) is the one cancelled. -/
theorem C5_first_cancelled_occurrence_only_witness :
    dispatchBooking gMixed = ListenerAction.cancelOccurrence gMixed (cOcc 2 "m2")
    ∧ (cOcc 2 "m2").cancelled = true
    ∧ cancelOccurrenceCalls (listenForBookings [gMixed]) gMixed = 1 := by
  have h := C5_first_cancelled_occurrence_only gMixed (by decide)
    (cOcc 2 "m2") (by decide)
  exact ⟨h.1, h.2.1, h.2.2.1⟩

/-! ## Booking-creation state machine (`app.go` createAppointment)

`ews.CreateAppointment` and the two cancellation calls are modelled as
oracles; the function's observable behaviour is its list of effects.
The single recursive retry (organizer replaced by the service user) is
executed with fuel 2: after the replacement the retry guard
`organizer != serviceUser` is false, so fuel 2 always suffices. -/

inductive CreateErr
  | declined
  | nonExistentMailbox
  | other (msg : String)
  deriving Repr, DecidableEq

/-- Result triple of `ews.CreateAppointment`: the Exchange UID of the
organizer's copy, the event ids found in the attendee mailboxes, and
the error if any (on `ErrDeclined` the UID is still returned). -/
structure CreateOutcome where
  exchangeUID : String
  resourceEventIDs : List String
  err : Option CreateErr
  deriving Repr, DecidableEq

structure WriterOracles where
  create : String → CreateOutcome
  cancelEventOK : BookingGroup → Bool
  bcCancelOK : Int → String → Bool

inductive WriterAction
  | createAttempt (organizer : String)
  | exchangeCancel (g : BookingGroup)
  | downstreamCancel (elionaID : Int) (reason : String)
  | upsertAction (g : BookingGroup)
  deriving Repr, DecidableEq

/-- The group as upserted on the fall-through path: UID from the
create result, the first occurrence's RoomBookings replaced by one
entry per returned resource event id. -/
def finalGroup (group : BookingGroup) (book : BookingOccurrence)
    (rest : List BookingOccurrence) (ids : List String) : BookingGroup :=
  { group with occurrences :=
      { book with roomBookings := ids.map (fun i => (⟨0, i⟩ : RoomBooking)) }
        :: rest }

/-- `createAppointment` with explicit retry fuel.  `none` models the Go
panics (`group.Occurrences[0]` on an empty occurrence list,
`assetsEmails[0]` on an empty email list) and fuel exhaustion, which
is unreachable from the entry point. -/
def createAppointmentGo (o : WriterOracles) (svc : String)
    (assetsEmails : List String) :
    Nat → BookingGroup → Option (List WriterAction)
  | 0, _ => none
  | fuel + 1, group =>
    match group.occurrences with
    | [] => none
    | book :: restOccs =>
      let group₁ := if group.organizerEmail = ""
        then { group with organizerEmail := svc } else group
      match assetsEmails with
      | [] => none
      | _ :: _ =>
        let r := o.create group₁.organizerEmail
        let group₂ := { group₁ with exchangeUID := r.exchangeUID }
        match r.err with
        | some CreateErr.declined =>
          if o.cancelEventOK group₂ = false then
            some [WriterAction.createAttempt group₁.organizerEmail,
                  WriterAction.exchangeCancel group₂]
          else if o.bcCancelOK group₂.elionaID "conflict" = false then
            some [WriterAction.createAttempt group₁.organizerEmail,
                  WriterAction.exchangeCancel group₂,
                  WriterAction.downstreamCancel group₂.elionaID "conflict"]
          else
            some [WriterAction.createAttempt group₁.organizerEmail,
                  WriterAction.exchangeCancel group₂,
                  WriterAction.downstreamCancel group₂.elionaID "conflict",
                  WriterAction.upsertAction
                    (finalGroup group₂ book restOccs r.resourceEventIDs)]
        | some CreateErr.nonExistentMailbox =>
          if group₁.organizerEmail ≠ svc then
            (createAppointmentGo o svc assetsEmails fuel
                { group₂ with organizerEmail := svc }).map
              fun acts => WriterAction.createAttempt group₁.organizerEmail :: acts
          else
            some [WriterAction.createAttempt group₁.organizerEmail,
                  WriterAction.downstreamCancel group₂.elionaID "error"]
        | some (CreateErr.other _) =>
          some [WriterAction.createAttempt group₁.organizerEmail,
                WriterAction.downstreamCancel group₂.elionaID "error"]
        | none =>
          some [WriterAction.createAttempt group₁.organizerEmail,
                WriterAction.upsertAction
                  (finalGroup group₂ book restOccs r.resourceEventIDs)]

/-- Entry point, as called from `bookInEWS`. -/
def createAppointment (o : WriterOracles) (svc : String)
    (assetsEmails : List String) (group : BookingGroup) :
    Option (List WriterAction) :=
  createAppointmentGo o svc assetsEmails 2 group

def isUpsertAction : WriterAction → Bool
  | WriterAction.upsertAction _ => true
  | _ => false

/-- Oracles for the C4 counterexample: every create is declined with
UID "u1" and both cancellations succeed. -/
def oraclesDeclined : WriterOracles :=
  { create := fun _ => { exchangeUID := "u1", resourceEventIDs := [], err := some CreateErr.declined }
    cancelEventOK := fun _ => true
    bcCancelOK := fun _ _ => true }

/-- The single occurrence of `gAlice`, C4 test data. -/
def occAlice : BookingOccurrence :=
  { elionaID := 12, instanceIndex := 0, start := 50, endTime := 60,
    cancelled := false, roomBookings := [⟨5, "ra"⟩] }

/-- A one-occurrence group from Alice, C4 test data. -/
def gAlice : BookingGroup :=
  { elionaID := 11, exchangeUID := "", organizerEmail := "alice@x",
    occurrences := [occAlice] }

/-- C4 counterexample: on ErrDeclined with both cancellations
succeeding, the code does NOT stop after cancelling: control falls
through and the group (with the returned UID and no room bookings) is
additionally upserted — an outcome the claimed state machine does not
contain on the declined path. -/
theorem C4_counterexample :
    ((createAppointment oraclesDeclined "svc@x" ["room@x"] gAlice).getD []).countP
        isUpsertAction = 1 := by
  decide

def isCreateAttempt : WriterAction → Bool
  | WriterAction.createAttempt _ => true
  | _ => false

theorem createAppointmentGo_at_svc (o : WriterOracles) (svc : String)
    (e : String) (es : List String) (g : BookingGroup)
    (book : BookingOccurrence) (restOccs : List BookingOccurrence)
    (fuel : Nat) (hocc : g.occurrences = book :: restOccs)
    (horg : g.organizerEmail = svc) :
    ∃ acts, createAppointmentGo o svc (e :: es) (fuel + 1) g = some acts
      ∧ acts.countP isCreateAttempt = 1
      ∧ acts.head? = some (WriterAction.createAttempt svc) := by
  obtain ⟨gid, guid, gorg, goccs⟩ := g
  simp only at hocc horg
  subst hocc horg
  simp only [createAppointmentGo, ite_self]
  rcases herr : (o.create gorg).err with _ | e'
  · simp only [herr]
    exact ⟨_, rfl, by simp [List.countP, List.countP.go, isCreateAttempt], rfl⟩
  · rcases e' with _ | _ | msg <;> simp only [herr]
    · by_cases hc : o.cancelEventOK ⟨gid, (o.create gorg).exchangeUID, gorg, book :: restOccs⟩ = false
      · rw [if_pos hc]
        exact ⟨_, rfl, by simp [List.countP, List.countP.go, isCreateAttempt], rfl⟩
      · rw [if_neg hc]
        by_cases hb : o.bcCancelOK gid "conflict" = false
        · rw [if_pos hb]
          exact ⟨_, rfl, by simp [List.countP, List.countP.go, isCreateAttempt], rfl⟩
        · rw [if_neg hb]
          exact ⟨_, rfl, by simp [List.countP, List.countP.go, isCreateAttempt], rfl⟩
    · rw [if_neg (by simp)]
      exact ⟨_, rfl, by simp [List.countP, List.countP.go, isCreateAttempt], rfl⟩
    · exact ⟨_, rfl, by simp [List.countP, List.countP.go, isCreateAttempt], rfl⟩

/-- C4 as amended: the booking-creation path realizes the claimed
branches — declined ⇒ Exchange cancel then downstream cancel with
reason "conflict"; non-existent mailbox with organizer ≠ service user
⇒ exactly one retry with organizer = service user; non-existent
mailbox with organizer = service user, or any other error ⇒ downstream
cancel with reason "error"; success ⇒ upsert with the returned
(UID, resourceEventIds) — but on the declined path, after both
cancellations succeed, control falls through and the group (returned
UID, no room bookings) is additionally upserted. -/
theorem C4_creation_state_machine (o : WriterOracles) (svc : String)
    (e : String) (es : List String) (g : BookingGroup)
    (book : BookingOccurrence) (restOccs : List BookingOccurrence)
    (hocc : g.occurrences = book :: restOccs)
    (horg : g.organizerEmail ≠ "") :
    ((o.create g.organizerEmail).err = some CreateErr.declined →
      o.cancelEventOK
          { g with exchangeUID := (o.create g.organizerEmail).exchangeUID } = true →
      o.bcCancelOK g.elionaID "conflict" = true →
      createAppointment o svc (e :: es) g = some
        [WriterAction.createAttempt g.organizerEmail,
         WriterAction.exchangeCancel
           { g with exchangeUID := (o.create g.organizerEmail).exchangeUID },
         WriterAction.downstreamCancel g.elionaID "conflict",
         WriterAction.upsertAction
           (finalGroup { g with exchangeUID := (o.create g.organizerEmail).exchangeUID }
             book restOccs (o.create g.organizerEmail).resourceEventIDs)])
    ∧ ((o.create g.organizerEmail).err = some CreateErr.nonExistentMailbox →
        g.organizerEmail ≠ svc →
        ∃ acts, createAppointmentGo o svc (e :: es) 1
            { g with exchangeUID := (o.create g.organizerEmail).exchangeUID,
                     organizerEmail := svc } = some acts
          ∧ createAppointment o svc (e :: es) g
              = some (WriterAction.createAttempt g.organizerEmail :: acts)
          ∧ acts.countP isCreateAttempt = 1
          ∧ acts.head? = some (WriterAction.createAttempt svc))
    ∧ ((o.create g.organizerEmail).err = some CreateErr.nonExistentMailbox →
        g.organizerEmail = svc →
        createAppointment o svc (e :: es) g = some
          [WriterAction.createAttempt g.organizerEmail,
           WriterAction.downstreamCancel g.elionaID "error"])
    ∧ (∀ msg, (o.create g.organizerEmail).err = some (CreateErr.other msg) →
        createAppointment o svc (e :: es) g = some
          [WriterAction.createAttempt g.organizerEmail,
           WriterAction.downstreamCancel g.elionaID "error"])
    ∧ ((o.create g.organizerEmail).err = none →
        createAppointment o svc (e :: es) g = some
          [WriterAction.createAttempt g.organizerEmail,
           WriterAction.upsertAction
             (finalGroup { g with exchangeUID := (o.create g.organizerEmail).exchangeUID }
               book restOccs (o.create g.organizerEmail).resourceEventIDs)]) := by
  obtain ⟨gid, guid, gorg, goccs⟩ := g
  simp only at hocc horg ⊢
  subst hocc
  refine ⟨?_, ?_, ?_, ?_, ?_⟩
  · intro herr hcancel hbc
    simp [createAppointment, createAppointmentGo, horg, herr, hcancel, hbc]
  · intro herr hne
    obtain ⟨acts, hacts, hcount, hhead⟩ :=
      createAppointmentGo_at_svc o svc e es
        ⟨gid, (o.create gorg).exchangeUID, svc, book :: restOccs⟩
        book restOccs 0 rfl rfl
    have hacts1 : createAppointmentGo o svc (e :: es) 1
        ⟨gid, (o.create gorg).exchangeUID, svc, book :: restOccs⟩ = some acts := by
      simpa using hacts
    refine ⟨acts, hacts1, ?_, hcount, hhead⟩
    have hstep : createAppointment o svc (e :: es) ⟨gid, guid, gorg, book :: restOccs⟩
        = (createAppointmentGo o svc (e :: es) 1
            ⟨gid, (o.create gorg).exchangeUID, svc, book :: restOccs⟩).map
          (fun acts => WriterAction.createAttempt gorg :: acts) := by
      simp [createAppointment, createAppointmentGo, horg, herr, hne]
    rw [hstep, hacts1]
    rfl
  · intro herr heq
    subst heq
    simp [createAppointment, createAppointmentGo, horg, herr]
  · intro msg herr
    simp [createAppointment, createAppointmentGo, horg, herr]
  · intro herr
    simp [createAppointment, createAppointmentGo, horg, herr]

/-- Oracles whose create reports a non-existent mailbox for everyone
except the service user. -/
def oraclesNoMailbox : WriterOracles :=
  { create := fun org =>
      if org = "svc@x"
      then { exchangeUID := "u2", resourceEventIDs := ["rX"], err := none }
      else { exchangeUID := "", resourceEventIDs := [],
             err := some CreateErr.nonExistentMailbox }
    cancelEventOK := fun _ => true
    bcCancelOK := fun _ _ => true }

/-- Oracles whose create always fails with a transport error. -/
def oraclesOtherErr : WriterOracles :=
  { create := fun _ => { exchangeUID := "", resourceEventIDs := [],
                         err := some (CreateErr.other "boom") }
    cancelEventOK := fun _ => true
    bcCancelOK := fun _ _ => true }

/-- Oracles whose create always succeeds with two resource events. -/
def oraclesOK : WriterOracles :=
  { create := fun _ => { exchangeUID := "u9",
                         resourceEventIDs := ["r1", "r2"], err := none }
    cancelEventOK := fun _ => true
    bcCancelOK := fun _ _ => true }

/-- Witness for the amended C4: all five branches exercised at
concrete oracles, in particular exactly two create attempts under the
service-user retry. -/
theorem C4_creation_state_machine_witness :
    (createAppointment oraclesDeclined "svc@x" ["room@x"] gAlice).isSome
    ∧ ((createAppointment oraclesNoMailbox "svc@x" ["room@x"] gAlice).getD
        []).countP isCreateAttempt = 2
    ∧ (createAppointment oraclesNoMailbox "alice@x" ["room@x"] gAlice).isSome
    ∧ (createAppointment oraclesOtherErr "svc@x" ["room@x"] gAlice).isSome
    ∧ (createAppointment oraclesOK "svc@x" ["room@x"] gAlice).isSome := by
  refine ⟨?_, ?_, ?_, ?_, ?_⟩
  · rw [(C4_creation_state_machine oraclesDeclined "svc@x" "room@x" [] gAlice
      occAlice [] rfl (by decide)).1 rfl rfl rfl]
    rfl
  · obtain ⟨acts, hacts1, heq, hcount, hhead⟩ :=
      (C4_creation_state_machine oraclesNoMailbox "svc@x" "room@x" [] gAlice
        occAlice [] rfl (by decide)).2.1 rfl (by decide)
    rw [heq]
    simp [List.countP_cons, isCreateAttempt, hcount]
  · rw [(C4_creation_state_machine oraclesNoMailbox "alice@x" "room@x" [] gAlice
      occAlice [] rfl (by decide)).2.2.1 rfl rfl]
    rfl
  · rw [(C4_creation_state_machine oraclesOtherErr "svc@x" "room@x" [] gAlice
      occAlice [] rfl (by decide)).2.2.2.1 "boom" rfl]
    rfl
  · rw [(C4_creation_state_machine oraclesOK "svc@x" "room@x" [] gAlice
      occAlice [] rfl (by decide)).2.2.2.2 rfl]
    rfl

/-! ## Exchange incremental sync (`ews.go` GetRoomAppointments,
expandRecurrence)

The Exchange server is an oracle: `sync` maps a sync cookie to the
SyncFolderItems response, `occ` maps (recurring-master id, instance
index) to the GetItem response, `resolve` answers ResolveNames.  The
XML decoder never populates `instanceIndex` (the Go struct field has
no xml tag), so decoded items carry the zero value 0; only
`expandRecurrence` sets it.  `resolveDN`'s per-helper cache is
observationally transparent here because the oracle is a pure
function, so it is not modelled.  Go `time.Time` is a `Nat` with 0 as
the zero time (`IsZero`). -/

structure CalendarItem where
  itemId : String
  changeKey : String
  uid : String
  instanceIndex : Int
  subject : String
  start : Nat
  endTime : Nat
  organizerEmail : String
  calendarItemType : String
  deriving Repr, DecidableEq

/-- SyncFolderItems response: a SOAP fault, or the sync state, the
IncludesLastItemInRange flag and the Create/Update/Delete changes
(`none` entries are non-CalendarItem scaffolding like t:Message). -/
structure SyncResponse where
  fault : Option String
  syncState : String
  includesLastItemInRange : Bool
  creates : List (Option CalendarItem)
  updates : List (Option CalendarItem)
  deletes : List String
  deriving Repr, DecidableEq

/-- GetItem response for one OccurrenceItemId request. -/
structure OccResponse where
  fault : Option String
  respClass : String
  responseCode : String
  item : CalendarItem
  deriving Repr, DecidableEq

structure ExchangeServer where
  sync : String → SyncResponse
  occ : String → Nat → OccResponse
  resolve : String → Option String

/-- `strings.Contains(s, "@")`. -/
def isSMTPAddress (s : String) : Bool := s.data.contains '@'

/-- `resolveDN`: an SMTP address resolves to itself, anything else is
sent to ResolveNames (`none` = resolution failure). -/
def resolveDN (srv : ExchangeServer) (name : String) : Option String :=
  if isSMTPAddress name then some name else srv.resolve name

/-- The expansion loop of `expandRecurrence`, with explicit fuel:
`none` models an unbounded loop (the server never answers
out-of-range).  The index of the first request is 1. -/
def expandRecurrenceGo (srv : ExchangeServer) (roomEmail eventID : String) :
    Nat → Nat → List CalendarItem → Option (Except String (List CalendarItem))
  | 0, _, _ => none
  | fuel + 1, idx, items =>
    let rm := srv.occ eventID idx
    match rm.fault with
    | some f => some (Except.error ("SOAP fault: " ++ f))
    | none =>
      if rm.responseCode = "ErrorCalendarOccurrenceIndexIsOutOfRecurrenceRange" then
        some (Except.ok items)
      else if rm.responseCode = "ErrorCalendarOccurrenceIsDeletedFromRecurrence" then
        expandRecurrenceGo srv roomEmail eventID fuel (idx + 1) items
      else if rm.respClass ≠ "Success" then
        some (Except.error ("GetItem failed: " ++ rm.responseCode))
      else
        expandRecurrenceGo srv roomEmail eventID fuel (idx + 1)
          (items ++ [{ rm.item with instanceIndex := (idx : Int) }])

def expandRecurrence (srv : ExchangeServer) (roomEmail eventID : String)
    (fuel : Nat) : Option (Except String (List CalendarItem)) :=
  expandRecurrenceGo srv roomEmail eventID fuel 1 []

/-- The classification the expansion loop applies to one GetItem
response, in the order the source checks it. -/
inductive OccOutcome
  | stop | skip | fail | collect
  deriving Repr, DecidableEq

def occOutcome (r : OccResponse) : OccOutcome :=
  if r.fault.isSome then OccOutcome.fail
  else if r.responseCode = "ErrorCalendarOccurrenceIndexIsOutOfRecurrenceRange" then
    OccOutcome.stop
  else if r.responseCode = "ErrorCalendarOccurrenceIsDeletedFromRecurrence" then
    OccOutcome.skip
  else if r.respClass ≠ "Success" then OccOutcome.fail
  else OccOutcome.collect

/-- Items the expansion collects for indices `i, i+1, …, N-1`. -/
def collectFrom (srv : ExchangeServer) (eventID : String) (i N : Nat) :
    List CalendarItem :=
  ((List.range' i (N - i)).filter
      (fun n => occOutcome (srv.occ eventID n) = OccOutcome.collect)).map
    (fun n => { (srv.occ eventID n).item with instanceIndex := (n : Int) })

/-- Replacement of a RecurringMaster by its expansion; any other item
is a singleton list of itself. -/
def itemsForChange (srv : ExchangeServer) (roomEmail : String) (fuel : Nat)
    (item : CalendarItem) : Option (Except String (List CalendarItem)) :=
  if item.calendarItemType = "RecurringMaster" then
    expandRecurrence srv roomEmail item.itemId fuel
  else some (Except.ok [item])

/-- The BookingGroup built from one change's items. -/
def groupOfItems (assetID : Int) (uid organizerEmail : String)
    (items : List CalendarItem) : BookingGroup :=
  { elionaID := 0, exchangeUID := uid, organizerEmail := organizerEmail,
    occurrences := items.map fun it =>
      { elionaID := 0, instanceIndex := it.instanceIndex, start := it.start,
        endTime := it.endTime, cancelled := false,
        roomBookings := [⟨assetID, it.itemId⟩] } }

/-- Processing of one list of Create (or Update) changes: `checkItem`
failures are skipped with a debug log, DN-resolution failures and
expansion errors abort the call. -/
def processChanges (srv : ExchangeServer) (roomEmail : String) (fuel : Nat)
    (assetID : Int) :
    List (Option CalendarItem) → Option (Except String (List BookingGroup))
  | [] => some (Except.ok [])
  | none :: rest => processChanges srv roomEmail fuel assetID rest
  | some item :: rest =>
    if item.start = 0 ∨ item.endTime = 0 ∨ item.organizerEmail = "" then
      processChanges srv roomEmail fuel assetID rest
    else
      match resolveDN srv item.organizerEmail with
      | none => some (Except.error "resolving distinguished name")
      | some organizerEmail =>
        match itemsForChange srv roomEmail fuel item with
        | none => none
        | some (Except.error e) => some (Except.error e)
        | some (Except.ok items) =>
          (processChanges srv roomEmail fuel assetID rest).map
            (Except.map fun groups =>
              groupOfItems assetID item.uid organizerEmail items :: groups)

/-- Result of one `GetRoomAppointments` pass; `requests` records the
sync cookies at which SyncFolderItems was invoked. -/
structure SyncResult where
  newGroups : List BookingGroup
  updatedGroups : List BookingGroup
  cancelledIDs : List String
  newSyncState : String
  requests : List String
  deriving Repr, DecidableEq

/-- `GetRoomAppointments`: one SyncFolderItems request at the given
cookie, processing of creates, updates and deletes, and the response's
SyncState as the new cookie.  (The source contains no loop on
`IncludesLastItemInRange`; the parsed flag is unused.) -/
def GetRoomAppointments (srv : ExchangeServer) (fuel : Nat) (assetID : Int)
    (roomEmail syncState : String) : Option (Except String SyncResult) :=
  let resp := srv.sync syncState
  match resp.fault with
  | some f => some (Except.error ("SOAP fault: " ++ f))
  | none =>
    match processChanges srv roomEmail fuel assetID resp.creates with
    | none => none
    | some (Except.error e) => some (Except.error e)
    | some (Except.ok newGroups) =>
      match processChanges srv roomEmail fuel assetID resp.updates with
      | none => none
      | some (Except.error e) => some (Except.error e)
      | some (Except.ok updatedGroups) =>
        some (Except.ok
          { newGroups := newGroups
            updatedGroups := updatedGroups
            cancelledIDs := resp.deletes
            newSyncState := resp.syncState
            requests := [syncState] })

instance {ε α : Type} [DecidableEq ε] [DecidableEq α] :
    DecidableEq (Except ε α) := fun a b =>
  match a, b with
  | Except.error e1, Except.error e2 =>
    if h : e1 = e2 then Decidable.isTrue (by simp [h])
    else Decidable.isFalse (by simp [h])
  | Except.error _, Except.ok _ => Decidable.isFalse (by simp)
  | Except.ok _, Except.error _ => Decidable.isFalse (by simp)
  | Except.ok a1, Except.ok a2 =>
    if h : a1 = a2 then Decidable.isTrue (by simp [h])
    else Decidable.isFalse (by simp [h])

/-- A singleton calendar item in batch 1 (decoded instanceIndex 0). -/
def itemA : CalendarItem :=
  { itemId := "ia", changeKey := "k1", uid := "ua", instanceIndex := 0,
    subject := "sa", start := 100, endTime := 200,
    organizerEmail := "alice@x", calendarItemType := "Single" }

/-- A singleton calendar item in batch 2. -/
def itemB : CalendarItem :=
  { itemId := "ib", changeKey := "k2", uid := "ub", instanceIndex := 0,
    subject := "sb", start := 300, endTime := 400,
    organizerEmail := "bob@x", calendarItemType := "Single" }

/-- A server whose pending change history spans two batches: the
response at the empty cookie carries `itemA` and reports
IncludesLastItemInRange = false; the response at cookie "c1" carries
`itemB` and reports true. -/
def srvTwoBatches : ExchangeServer :=
  { sync := fun s =>
      if s = "" then
        { fault := none, syncState := "c1", includesLastItemInRange := false,
          creates := [some itemA], updates := [], deletes := [] }
      else if s = "c1" then
        { fault := none, syncState := "c2", includesLastItemInRange := true,
          creates := [some itemB], updates := [], deletes := [] }
      else
        { fault := some "ErrorInvalidSyncStateData", syncState := s,
          includesLastItemInRange := true, creates := [], updates := [],
          deletes := [] }
    occ := fun _ _ =>
      { fault := none, respClass := "Error",
        responseCode := "ErrorItemNotFound", item := itemA }
    resolve := fun _ => none }

/-- C1 counterexample: with two pending batches, one collection pass
issues exactly one SyncFolderItems request (at the initial cookie),
whose response reports IncludesLastItemInRange = false, and returns
only batch 1's group — the implementation does not loop until the flag
is true, so a single pass does not drain the pending history. -/
theorem C1_counterexample :
    (GetRoomAppointments srvTwoBatches 5 1 "room@x" "").map
        (Except.map SyncResult.requests) = some (Except.ok [""])
    ∧ (srvTwoBatches.sync "").includesLastItemInRange = false
    ∧ (GetRoomAppointments srvTwoBatches 5 1 "room@x" "").map
        (Except.map SyncResult.newSyncState) = some (Except.ok "c1")
    ∧ (GetRoomAppointments srvTwoBatches 5 1 "room@x" "").map
        (Except.map fun r => r.newGroups.map BookingGroup.exchangeUID)
      = some (Except.ok ["ua"]) := by
  refine ⟨by decide, by decide, by decide, by decide⟩

/-- C1 as amended: every successful pass issues exactly one
SyncFolderItems request, at the cookie it was given, and returns the
response's SyncState as the new cookie (which collectResources
persists); the pending history is drained across successive passes,
each resuming from the previously persisted cookie — as the second
conjunct shows on the two-batch server, where the second pass picks up
batch 2. -/
theorem C1_single_sync_request_per_pass (srv : ExchangeServer) (fuel : Nat)
    (assetID : Int) (roomEmail syncState : String) :
    (∀ res, GetRoomAppointments srv fuel assetID roomEmail syncState
        = some (Except.ok res) →
      res.requests = [syncState]
      ∧ res.newSyncState = (srv.sync syncState).syncState)
    ∧ (GetRoomAppointments srvTwoBatches 5 1 "room@x" "c1").map
        (Except.map fun r => r.newGroups.map BookingGroup.exchangeUID)
      = some (Except.ok ["ub"]) := by
  constructor
  · intro res h
    simp only [GetRoomAppointments] at h
    rcases hf : (srv.sync syncState).fault with _ | f
    · simp only [hf] at h
      rcases hc : processChanges srv roomEmail fuel assetID
          (srv.sync syncState).creates with _ | ec
      · simp [hc] at h
      · rcases ec with e | newGroups
        · simp [hc] at h
        · simp only [hc] at h
          rcases hu : processChanges srv roomEmail fuel assetID
              (srv.sync syncState).updates with _ | eu
          · simp [hu] at h
          · rcases eu with e | updatedGroups
            · simp [hu] at h
            · simp only [hu, Option.some.injEq, Except.ok.injEq] at h
              subst h
              exact ⟨rfl, rfl⟩
    · simp [hf] at h
  · decide

/-- The concrete result of the first pass on the two-batch server. -/
def resBatchOne : SyncResult :=
  { newGroups := [groupOfItems 1 "ua" "alice@x" [itemA]]
    updatedGroups := []
    cancelledIDs := []
    newSyncState := "c1"
    requests := [""] }

/-- Witness for the amended C1 on the two-batch server. -/
theorem C1_single_sync_request_per_pass_witness :
    resBatchOne.requests = [""]
    ∧ resBatchOne.newSyncState = (srvTwoBatches.sync "").syncState :=
  (C1_single_sync_request_per_pass srvTwoBatches 5 1 "room@x" "").1
    resBatchOne (by decide)

/-- C7 counterexample: a non-recurring calendar item synced from
Exchange produces an occurrence with instanceIndex 0 (the decoder's
zero value), not 1 as the claim states. -/
theorem C7_counterexample :
    (GetRoomAppointments srvTwoBatches 5 1 "room@x" "").map
        (Except.map fun r =>
          r.newGroups.map fun g => g.occurrences.map fun o => o.instanceIndex)
      = some (Except.ok [[0]])
    ∧ (0 : Int) ≠ 1 := by
  refine ⟨by decide, by decide⟩

/-- C7 as amended: a non-recurring item passes through with the
instanceIndex the XML decoder produced — which is the Go zero value 0,
since the struct field has no xml tag and SyncFolderItems never sets
it — so the occurrence of a singleton carries instanceIndex 0 (1-based
indices appear only on expanded recurrence instances). -/
theorem C7_singleton_instanceIndex_zero (srv : ExchangeServer)
    (roomEmail : String) (fuel : Nat) (assetID : Int) (item : CalendarItem)
    (rest : List (Option CalendarItem)) (org : String)
    (hidx : item.instanceIndex = 0)
    (htype : item.calendarItemType ≠ "RecurringMaster")
    (hstart : item.start ≠ 0) (hend : item.endTime ≠ 0)
    (horg : item.organizerEmail ≠ "")
    (hres : resolveDN srv item.organizerEmail = some org) :
    (∀ groups, processChanges srv roomEmail fuel assetID rest
        = some (Except.ok groups) →
      processChanges srv roomEmail fuel assetID (some item :: rest)
        = some (Except.ok (groupOfItems assetID item.uid org [item] :: groups)))
    ∧ (groupOfItems assetID item.uid org [item]).occurrences.map
        (fun o => o.instanceIndex) = [0] := by
  constructor
  · intro groups hrest
    simp only [processChanges, hstart, hend, horg, hres, itemsForChange, htype,
      if_false, or_self, ite_false, hrest]
    simp [hrest, Except.map]
  · simp [groupOfItems, hidx]

/-- Witness for the amended C7 at the concrete singleton `itemA`. -/
theorem C7_singleton_instanceIndex_zero_witness :
    processChanges srvTwoBatches "room@x" 5 1 [some itemA]
      = some (Except.ok [groupOfItems 1 itemA.uid "alice@x" [itemA]])
    ∧ (groupOfItems 1 itemA.uid "alice@x" [itemA]).occurrences.map
        (fun o => o.instanceIndex) = [0] := by
  have h := C7_singleton_instanceIndex_zero srvTwoBatches "room@x" 5 1 itemA []
    "alice@x" (by decide) (by decide) (by decide) (by decide) (by decide)
    (by decide)
  exact ⟨h.1 [] (by decide), h.2⟩

theorem occOutcome_stop {r : OccResponse}
    (h : occOutcome r = OccOutcome.stop) :
    r.fault = none
    ∧ r.responseCode = "ErrorCalendarOccurrenceIndexIsOutOfRecurrenceRange" := by
  unfold occOutcome at h
  split_ifs at h with h1 h2 h3 h4 <;>
    simp_all [Option.not_isSome_iff_eq_none]

theorem occOutcome_skip {r : OccResponse}
    (h : occOutcome r = OccOutcome.skip) :
    r.fault = none
    ∧ r.responseCode ≠ "ErrorCalendarOccurrenceIndexIsOutOfRecurrenceRange"
    ∧ r.responseCode = "ErrorCalendarOccurrenceIsDeletedFromRecurrence" := by
  unfold occOutcome at h
  split_ifs at h with h1 h2 h3 h4 <;>
    simp_all [Option.not_isSome_iff_eq_none]

theorem occOutcome_collect {r : OccResponse}
    (h : occOutcome r = OccOutcome.collect) :
    r.fault = none
    ∧ r.responseCode ≠ "ErrorCalendarOccurrenceIndexIsOutOfRecurrenceRange"
    ∧ r.responseCode ≠ "ErrorCalendarOccurrenceIsDeletedFromRecurrence"
    ∧ r.respClass = "Success" := by
  unfold occOutcome at h
  split_ifs at h with h1 h2 h3 h4 <;>
    simp_all [Option.not_isSome_iff_eq_none]

theorem occOutcome_fail {r : OccResponse}
    (h : occOutcome r = OccOutcome.fail) :
    (∃ f, r.fault = some f)
    ∨ (r.fault = none
        ∧ r.responseCode ≠ "ErrorCalendarOccurrenceIndexIsOutOfRecurrenceRange"
        ∧ r.responseCode ≠ "ErrorCalendarOccurrenceIsDeletedFromRecurrence"
        ∧ r.respClass ≠ "Success") := by
  unfold occOutcome at h
  split_ifs at h with h1 h2 h3 h4 <;>
    simp_all [Option.not_isSome_iff_eq_none, Option.isSome_iff_exists,
      Option.eq_none_iff_forall_not_mem]

theorem collectFrom_step (srv : ExchangeServer) (eventID : String)
    (i N : Nat) (h : i < N) :
    collectFrom srv eventID i N
      = if occOutcome (srv.occ eventID i) = OccOutcome.collect
        then { (srv.occ eventID i).item with instanceIndex := (i : Int) }
          :: collectFrom srv eventID (i + 1) N
        else collectFrom srv eventID (i + 1) N := by
  unfold collectFrom
  have hsplit : N - i = (N - (i + 1)) + 1 := by omega
  rw [hsplit, List.range'_succ]
  by_cases hc : occOutcome (srv.occ eventID i) = OccOutcome.collect <;>
    simp [hc]

theorem collectFrom_self (srv : ExchangeServer) (eventID : String) (N : Nat) :
    collectFrom srv eventID N N = [] := by
  unfold collectFrom
  simp

theorem expandRecurrenceGo_spec (srv : ExchangeServer)
    (roomEmail eventID : String) (N : Nat)
    (hstop : occOutcome (srv.occ eventID N) = OccOutcome.stop) :
    ∀ fuel i acc, i ≤ N → N - i < fuel →
      (∀ n, i ≤ n → n < N →
        occOutcome (srv.occ eventID n) = OccOutcome.skip
          ∨ occOutcome (srv.occ eventID n) = OccOutcome.collect) →
      expandRecurrenceGo srv roomEmail eventID fuel i acc
        = some (Except.ok (acc ++ collectFrom srv eventID i N)) := by
  intro fuel
  induction fuel with
  | zero => intro i acc h1 h2 h3; omega
  | succ fuel ih =>
    intro i acc hiN hfuel hall
    by_cases hi : i = N
    · subst hi
      obtain ⟨hf, hcode⟩ := occOutcome_stop hstop
      simp [expandRecurrenceGo, hf, hcode, collectFrom_self]
    · have hiltN : i < N := lt_of_le_of_ne hiN hi
      rcases hall i le_rfl hiltN with hskip | hcollect
      · obtain ⟨hf, hne, hcode⟩ := occOutcome_skip hskip
        rw [collectFrom_step srv eventID i N hiltN, if_neg (by simp [hskip])]
        simp only [expandRecurrenceGo, hf, hcode, hne, if_false, ite_true]
        exact ih (i + 1) acc hiltN (by omega)
          (fun n hn1 hn2 => hall n (by omega) hn2)
      · obtain ⟨hf, hne1, hne2, hclass⟩ := occOutcome_collect hcollect
        rw [collectFrom_step srv eventID i N hiltN, if_pos hcollect]
        simp only [expandRecurrenceGo, hf, hne1, hne2, hclass, if_false,
          ite_false, ne_eq, not_true_eq_false]
        conv_rhs => rw [List.append_cons]
        exact ih (i + 1) _ hiltN (by omega)
          (fun n hn1 hn2 => hall n (by omega) hn2)

theorem expandRecurrenceGo_fail (srv : ExchangeServer)
    (roomEmail eventID : String) (M : Nat)
    (hfail : occOutcome (srv.occ eventID M) = OccOutcome.fail) :
    ∀ fuel i acc, i ≤ M → M - i < fuel →
      (∀ n, i ≤ n → n < M →
        occOutcome (srv.occ eventID n) = OccOutcome.skip
          ∨ occOutcome (srv.occ eventID n) = OccOutcome.collect) →
      ∃ msg, expandRecurrenceGo srv roomEmail eventID fuel i acc
        = some (Except.error msg) := by
  intro fuel
  induction fuel with
  | zero => intro i acc h1 h2 h3; omega
  | succ fuel ih =>
    intro i acc hiM hfuel hall
    by_cases hi : i = M
    · subst hi
      rcases occOutcome_fail hfail with ⟨f, hf⟩ | ⟨hf, hne1, hne2, hclass⟩
      · exact ⟨"SOAP fault: " ++ f, by simp [expandRecurrenceGo, hf]⟩
      · refine ⟨"GetItem failed: " ++ (srv.occ eventID i).responseCode, ?_⟩
        simp [expandRecurrenceGo, hf, hne1, hne2, hclass]
    · have hiltM : i < M := lt_of_le_of_ne hiM hi
      rcases hall i le_rfl hiltM with hskip | hcollect
      · obtain ⟨hf, hne, hcode⟩ := occOutcome_skip hskip
        simp only [expandRecurrenceGo, hf, hcode, hne, if_false, ite_true]
        exact ih (i + 1) acc hiltM (by omega)
          (fun n hn1 hn2 => hall n (by omega) hn2)
      · obtain ⟨hf, hne1, hne2, hclass⟩ := occOutcome_collect hcollect
        simp only [expandRecurrenceGo, hf, hne1, hne2, hclass, if_false,
          ite_false, ne_eq, not_true_eq_false]
        exact ih (i + 1) _ hiltM (by omega)
          (fun n hn1 hn2 => hall n (by omega) hn2)

/-- C8: expandRecurrence iterates OccurrenceItemId requests from
InstanceIndex 1 upward; it returns the collected items when the server
answers ErrorCalendarOccurrenceIndexIsOutOfRecurrenceRange, collects
nothing for an index answered ErrorCalendarOccurrenceIsDeletedFromRecurrence
and continues, fails on any other non-Success response, and every
returned item carries the InstanceIndex at which it was fetched; a
RecurringMaster is replaced by this expansion and never booked as an
occurrence itself. -/
theorem C8_expandRecurrence_spec :
    (∀ (srv : ExchangeServer) (roomEmail eventID : String) (N fuel : Nat),
      occOutcome (srv.occ eventID N) = OccOutcome.stop → 1 ≤ N → N ≤ fuel →
      (∀ n, 1 ≤ n → n < N →
        occOutcome (srv.occ eventID n) = OccOutcome.skip
          ∨ occOutcome (srv.occ eventID n) = OccOutcome.collect) →
      expandRecurrence srv roomEmail eventID fuel
        = some (Except.ok (collectFrom srv eventID 1 N))
      ∧ ∀ it ∈ collectFrom srv eventID 1 N,
          ∃ n, 1 ≤ n ∧ n < N
            ∧ occOutcome (srv.occ eventID n) = OccOutcome.collect
            ∧ it = { (srv.occ eventID n).item with instanceIndex := (n : Int) })
    ∧ (∀ (srv : ExchangeServer) (roomEmail eventID : String) (M fuel : Nat),
        occOutcome (srv.occ eventID M) = OccOutcome.fail → 1 ≤ M → M ≤ fuel →
        (∀ n, 1 ≤ n → n < M →
          occOutcome (srv.occ eventID n) = OccOutcome.skip
            ∨ occOutcome (srv.occ eventID n) = OccOutcome.collect) →
        ∃ msg, expandRecurrence srv roomEmail eventID fuel
          = some (Except.error msg))
    ∧ (∀ (srv : ExchangeServer) (roomEmail : String) (fuel : Nat)
        (item : CalendarItem), item.calendarItemType = "RecurringMaster" →
        itemsForChange srv roomEmail fuel item
          = expandRecurrence srv roomEmail item.itemId fuel)
    ∧ (∀ (srv : ExchangeServer) (roomEmail : String) (fuel : Nat)
        (assetID : Int) (item : CalendarItem)
        (rest : List (Option CalendarItem)) (org : String)
        (items : List CalendarItem) (groups : List BookingGroup),
        item.calendarItemType = "RecurringMaster" →
        item.start ≠ 0 → item.endTime ≠ 0 → item.organizerEmail ≠ "" →
        resolveDN srv item.organizerEmail = some org →
        expandRecurrence srv roomEmail item.itemId fuel
          = some (Except.ok items) →
        processChanges srv roomEmail fuel assetID rest
          = some (Except.ok groups) →
        processChanges srv roomEmail fuel assetID (some item :: rest)
          = some (Except.ok (groupOfItems assetID item.uid org items :: groups))) := by
  refine ⟨?_, ?_, ?_, ?_⟩
  · intro srv roomEmail eventID N fuel hstop hN hfuel hall
    constructor
    · have h := expandRecurrenceGo_spec srv roomEmail eventID N hstop fuel 1 []
        hN (by omega) hall
      simpa [expandRecurrence] using h
    · intro it hit
      unfold collectFrom at hit
      obtain ⟨n, hn, rfl⟩ := List.mem_map.mp hit
      obtain ⟨hrange, hcoll⟩ := List.mem_filter.mp hn
      rw [List.mem_range'_1] at hrange
      refine ⟨n, hrange.1, by omega, by simpa using hcoll, rfl⟩
  · intro srv roomEmail eventID M fuel hfail hM hfuel hall
    have h := expandRecurrenceGo_fail srv roomEmail eventID M hfail fuel 1 []
      hM (by omega) hall
    simpa [expandRecurrence] using h
  · intro srv roomEmail fuel item htype
    unfold itemsForChange
    rw [if_pos htype]
  · intro srv roomEmail fuel assetID item rest org items groups
      htype hstart hend horg hres hexp hrest
    simp only [processChanges, hstart, hend, horg, hres, itemsForChange, htype,
      if_true, or_self, ite_true, hexp, hrest]
    simp [Except.map]

/-- A plain occurrence item used by the recurrence test server. -/
def itemR : CalendarItem :=
  { itemId := "ir", changeKey := "kr", uid := "um", instanceIndex := 0,
    subject := "sr", start := 500, endTime := 600,
    organizerEmail := "carol@x", calendarItemType := "Occurrence" }

/-- A RecurringMaster change item. -/
def itemM : CalendarItem :=
  { itemId := "master", changeKey := "km", uid := "um", instanceIndex := 0,
    subject := "sm", start := 500, endTime := 600,
    organizerEmail := "carol@x", calendarItemType := "RecurringMaster" }

def occSuccess (it : CalendarItem) : OccResponse :=
  { fault := none, respClass := "Success", responseCode := "NoError",
    item := it }

def occStop : OccResponse :=
  { fault := none, respClass := "Error",
    responseCode := "ErrorCalendarOccurrenceIndexIsOutOfRecurrenceRange",
    item := itemR }

def occDeleted : OccResponse :=
  { fault := none, respClass := "Error",
    responseCode := "ErrorCalendarOccurrenceIsDeletedFromRecurrence",
    item := itemR }

/-- A server whose recurring master has occurrences at indices 1 and
3, a deleted occurrence at index 2, and reports out-of-range at 4. -/
def srvRec : ExchangeServer :=
  { sync := fun s =>
      { fault := some "unused", syncState := s,
        includesLastItemInRange := true, creates := [], updates := [],
        deletes := [] }
    occ := fun _ n =>
      if n = 1 then occSuccess itemR
      else if n = 2 then occDeleted
      else if n = 3 then occSuccess itemR
      else occStop
    resolve := fun _ => none }

/-- A server whose recurring master answers a non-Success response at
index 2. -/
def srvRecFail : ExchangeServer :=
  { sync := fun s =>
      { fault := some "unused", syncState := s,
        includesLastItemInRange := true, creates := [], updates := [],
        deletes := [] }
    occ := fun _ n =>
      if n = 1 then occSuccess itemR
      else { fault := none, respClass := "Error",
             responseCode := "ErrorItemNotFound", item := itemR }
    resolve := fun _ => none }

/-- Witness for C8 on the concrete servers: the expansion collects
indices 1 and 3 (skipping the deleted 2), with the fetched indices on
the items; the non-Success server yields an error; the master change
books only the expanded instances. -/
theorem C8_expandRecurrence_spec_witness :
    (expandRecurrence srvRec "room@x" "master" 10
        = some (Except.ok (collectFrom srvRec "master" 1 4))
      ∧ ∀ it ∈ collectFrom srvRec "master" 1 4,
          ∃ n, 1 ≤ n ∧ n < 4
            ∧ occOutcome (srvRec.occ "master" n) = OccOutcome.collect
            ∧ it = { (srvRec.occ "master" n).item with instanceIndex := (n : Int) })
    ∧ collectFrom srvRec "master" 1 4
        = [{ itemR with instanceIndex := 1 }, { itemR with instanceIndex := 3 }]
    ∧ (∃ msg, expandRecurrence srvRecFail "room@x" "master" 10
        = some (Except.error msg))
    ∧ itemsForChange srvRec "room@x" 10 itemM
        = expandRecurrence srvRec "room@x" "master" 10
    ∧ processChanges srvRec "room@x" 10 7 [some itemM]
        = some (Except.ok
            [groupOfItems 7 "um" "carol@x"
              [{ itemR with instanceIndex := 1 }, { itemR with instanceIndex := 3 }]]) := by
  have hcollect : collectFrom srvRec "master" 1 4
      = [{ itemR with instanceIndex := 1 }, { itemR with instanceIndex := 3 }] := by
    decide
  refine ⟨C8_expandRecurrence_spec.1 srvRec "room@x" "master" 4 10 (by decide)
      (by decide) (by decide)
      (fun n h1 h2 => by interval_cases n <;> decide),
    hcollect,
    C8_expandRecurrence_spec.2.1 srvRecFail "room@x" "master" 2 10 (by decide)
      (by decide) (by decide)
      (fun n h1 h2 => by interval_cases n <;> decide),
    C8_expandRecurrence_spec.2.2.1 srvRec "room@x" 10 itemM (by decide),
    ?_⟩
  have hexp : expandRecurrence srvRec "room@x" "master" 10
      = some (Except.ok
        [{ itemR with instanceIndex := 1 }, { itemR with instanceIndex := 3 }]) := by
    decide
  exact C8_expandRecurrence_spec.2.2.2 srvRec "room@x" 10 7 itemM [] "carol@x"
    [{ itemR with instanceIndex := 1 }, { itemR with instanceIndex := 3 }] []
    (by decide) (by decide) (by decide) (by decide) (by decide) hexp (by decide)

/-! ## Collection pass effect ordering (`app.go` collectResources)

The per-asset loop — sync-state load, GetRoomAppointments,
assignElionaIDs, the toBook merge, cancellation lookups and
PersistSyncState — followed by the two downstream pushes (Book and
CancelSlice).  The DB and EWS interactions are oracles; the observable
behaviour is the ordered trace of store writes (persisted cookies) and
downstream push attempts.  A failing step aborts the pass before the
pushes (`aborted`); an out-of-bounds merge is `panicked`; push results
are only logged in the source, so they do not appear in the control
flow at all (the final two Bool arguments of `collectResources` are
the push outcomes and are unused, exactly as in the source). -/

structure CollectAsset where
  id : Nat
  assetIDValid : Bool
  assetID : Int
  providerID : String
  deriving Repr, DecidableEq

/-- The quadruple `GetRoomAppointments` returns (new, updated,
cancelled ids, new sync state). -/
structure SyncCallOut where
  newGroups : List BookingGroup
  updatedGroups : List BookingGroup
  cancelled : List String
  newSyncState : String
  deriving Repr, DecidableEq

/-- Outcome of the two DB lookups on one cancelled exchange id:
group not found or without Eliona id ⇒ skip; a DB error in either
lookup ⇒ abort; otherwise the Eliona booking ids of the group's
occurrences. -/
inductive CancelLookup
  | notFound
  | invalidGroup
  | groupErr
  | occsErr
  | found (occElionaIDs : List Int)
  deriving Repr, DecidableEq

/-- Models the `syncmodel.RoomBooking{AssetID, BookingOccurrence:
&BookingOccurrence{ElionaID}}` values built on the cancellation
path. -/
structure CancelledBooking where
  assetID : Int
  occElionaID : Int
  deriving Repr, DecidableEq

structure CollectOracles where
  getSyncState : Nat → Option String
  syncCall : String → String → Option SyncCallOut
  assign : BookingGroup → Option BookingGroup
  cancelLookup : String → CancelLookup
  persistOK : Nat → Bool

inductive CollectEvent
  | persistCookie (assetDBID : Nat) (cookie : String)
  | pushBook
  | pushCancelSlice
  deriving Repr, DecidableEq

inductive LoopOutcome
  | ok | aborted | panicked
  deriving Repr, DecidableEq

inductive StepRes (α : Type)
  | ok (a : α)
  | err
  | crash

/-- `assignElionaIDs` then the `toBook` merge, for one change list. -/
def accumulateGroups (o : CollectOracles) :
    List BookingGroup → List (String × BookingGroup) →
    StepRes (List (String × BookingGroup))
  | [], toBook => StepRes.ok toBook
  | g :: rest, toBook =>
    match o.assign g with
    | none => StepRes.err
    | some a =>
      match addToBook toBook a with
      | none => StepRes.crash
      | some toBook₂ => accumulateGroups o rest toBook₂

/-- The cancelled-ids loop of one asset. -/
def accumulateCancelled (o : CollectOracles) (assetID : Int) :
    List String → List CancelledBooking → StepRes (List CancelledBooking)
  | [], acc => StepRes.ok acc
  | eid :: rest, acc =>
    match o.cancelLookup eid with
    | CancelLookup.groupErr => StepRes.err
    | CancelLookup.occsErr => StepRes.err
    | CancelLookup.notFound => accumulateCancelled o assetID rest acc
    | CancelLookup.invalidGroup => accumulateCancelled o assetID rest acc
    | CancelLookup.found ids =>
      accumulateCancelled o assetID rest
        (acc ++ ids.map fun i => { assetID := assetID, occElionaID := i })

/-- One iteration of the asset loop.  The result carries the persisted
(asset id, cookie) pair, `none` when the asset was skipped. -/
def collectAsset (o : CollectOracles) (ast : CollectAsset)
    (toBook : List (String × BookingGroup))
    (cancelled : List CancelledBooking) :
    StepRes (List (String × BookingGroup) × List CancelledBooking
      × Option (Nat × String)) :=
  if ast.assetIDValid = false then StepRes.ok (toBook, cancelled, none)
  else if ast.providerID = "" then StepRes.ok (toBook, cancelled, none)
  else
    match o.getSyncState ast.id with
    | none => StepRes.err
    | some syncState =>
      match o.syncCall ast.providerID syncState with
      | none => StepRes.err
      | some out =>
        match accumulateGroups o out.updatedGroups toBook with
        | StepRes.err => StepRes.err
        | StepRes.crash => StepRes.crash
        | StepRes.ok toBook₁ =>
          match accumulateGroups o out.newGroups toBook₁ with
          | StepRes.err => StepRes.err
          | StepRes.crash => StepRes.crash
          | StepRes.ok toBook₂ =>
            match accumulateCancelled o ast.assetID out.cancelled cancelled with
            | StepRes.err => StepRes.err
            | StepRes.crash => StepRes.crash
            | StepRes.ok cancelled₂ =>
              if o.persistOK ast.id = false then StepRes.err
              else StepRes.ok (toBook₂, cancelled₂,
                some (ast.id, out.newSyncState))

/-- The store-write event of one asset iteration. -/
def persistEvents : Option (Nat × String) → List CollectEvent
  | none => []
  | some (i, ck) => [CollectEvent.persistCookie i ck]

/-- The asset loop, threading the accumulators and the event trace. -/
def collectLoop (o : CollectOracles) :
    List CollectAsset → List (String × BookingGroup) →
    List CancelledBooking → List CollectEvent →
    List CollectEvent × LoopOutcome
  | [], _, _, trace => (trace, LoopOutcome.ok)
  | ast :: rest, toBook, cancelled, trace =>
    match collectAsset o ast toBook cancelled with
    | StepRes.err => (trace, LoopOutcome.aborted)
    | StepRes.crash => (trace, LoopOutcome.panicked)
    | StepRes.ok res =>
      collectLoop o rest res.1 res.2.1 (trace ++ persistEvents res.2.2)

/-- `collectResources`: the asset loop, then — only when the loop
completed — the Book push and the CancelSlice push.  The two Bool
arguments are the push outcomes; as in the source they are only
logged, so they influence nothing. -/
def collectResources (o : CollectOracles) (assets : List CollectAsset)
    (bookOK cancelSliceOK : Bool) : List CollectEvent × LoopOutcome :=
  match collectLoop o assets [] [] [] with
  | (trace, LoopOutcome.ok) =>
    (trace ++ [CollectEvent.pushBook, CollectEvent.pushCancelSlice],
      LoopOutcome.ok)
  | (trace, out) => (trace, out)

def isPersistEvent : CollectEvent → Bool
  | CollectEvent.persistCookie _ _ => true
  | _ => false

def isPushEvent : CollectEvent → Bool
  | CollectEvent.pushBook => true
  | CollectEvent.pushCancelSlice => true
  | _ => false

theorem persistEvents_no_push (p : Option (Nat × String)) :
    ∀ ev ∈ persistEvents p, isPushEvent ev = false := by
  intro ev hev
  cases p with
  | none => simp [persistEvents] at hev
  | some pr =>
    obtain ⟨i, ck⟩ := pr
    simp [persistEvents] at hev
    subst hev
    rfl

theorem collectLoop_no_push (o : CollectOracles) :
    ∀ (assets : List CollectAsset) toBook cancelled trace,
      (∀ ev ∈ trace, isPushEvent ev = false) →
      ∀ ev ∈ (collectLoop o assets toBook cancelled trace).1,
        isPushEvent ev = false
  | [], _, _, _ => fun h => h
  | ast :: rest, toBook, cancelled, trace => fun h ev hev => by
    simp only [collectLoop] at hev
    cases hca : collectAsset o ast toBook cancelled with
    | err => rw [hca] at hev; exact h ev hev
    | crash => rw [hca] at hev; exact h ev hev
    | ok res =>
      rw [hca] at hev
      refine collectLoop_no_push o rest res.1 res.2.1
        (trace ++ persistEvents res.2.2) ?_ ev hev
      intro e he
      rcases List.mem_append.mp he with h1 | h2
      · exact h e h1
      · exact persistEvents_no_push res.2.2 e h2

theorem collectLoop_trace_mono (o : CollectOracles) :
    ∀ (assets : List CollectAsset) toBook cancelled trace ev,
      ev ∈ trace →
      ev ∈ (collectLoop o assets toBook cancelled trace).1
  | [], _, _, _, _ => fun h => h
  | ast :: rest, toBook, cancelled, trace, ev => fun h => by
    simp only [collectLoop]
    cases hca : collectAsset o ast toBook cancelled with
    | err => exact h
    | crash => exact h
    | ok res =>
      exact collectLoop_trace_mono o rest res.1 res.2.1
        (trace ++ persistEvents res.2.2) ev (List.mem_append.mpr (Or.inl h))

theorem collectAsset_persist (o : CollectOracles) (ast : CollectAsset)
    (toBook : List (String × BookingGroup))
    (cancelled : List CancelledBooking)
    (t : List (String × BookingGroup)) (c : List CancelledBooking)
    (p : Option (Nat × String))
    (h : collectAsset o ast toBook cancelled = StepRes.ok (t, c, p))
    (hvalid : ast.assetIDValid = true) (hprov : ast.providerID ≠ "") :
    ∃ st out, o.getSyncState ast.id = some st
      ∧ o.syncCall ast.providerID st = some out
      ∧ p = some (ast.id, out.newSyncState) := by
  unfold collectAsset at h
  rw [if_neg (by simp [hvalid])] at h
  rw [if_neg (by simp [hprov])] at h
  cases hst : o.getSyncState ast.id with
  | none => simp only [hst] at h; cases h
  | some st =>
    simp only [hst] at h
    cases hsc : o.syncCall ast.providerID st with
    | none => simp only [hsc] at h; cases h
    | some out =>
      simp only [hsc] at h
      refine ⟨st, out, rfl, hsc, ?_⟩
      cases h1 : accumulateGroups o out.updatedGroups toBook with
      | err => simp only [h1] at h; cases h
      | crash => simp only [h1] at h; cases h
      | ok toBook₁ =>
        simp only [h1] at h
        cases h2 : accumulateGroups o out.newGroups toBook₁ with
        | err => simp only [h2] at h; cases h
        | crash => simp only [h2] at h; cases h
        | ok toBook₂ =>
          simp only [h2] at h
          cases h3 : accumulateCancelled o ast.assetID out.cancelled cancelled with
          | err => simp only [h3] at h; cases h
          | crash => simp only [h3] at h; cases h
          | ok cancelled₂ =>
            simp only [h3] at h
            by_cases h4 : o.persistOK ast.id = false
            · rw [if_pos h4] at h; cases h
            · rw [if_neg h4] at h
              injection h with h5
              injection h5 with _ h6
              injection h6 with _ h7
              exact h7.symm

theorem collectLoop_persists (o : CollectOracles) :
    ∀ (assets : List CollectAsset) toBook cancelled trace,
      (collectLoop o assets toBook cancelled trace).2 = LoopOutcome.ok →
      ∀ ast ∈ assets, ast.assetIDValid = true → ast.providerID ≠ "" →
        ∃ st out, o.getSyncState ast.id = some st
          ∧ o.syncCall ast.providerID st = some out
          ∧ CollectEvent.persistCookie ast.id out.newSyncState
              ∈ (collectLoop o assets toBook cancelled trace).1
  | [], _, _, _ => fun _ ast hast => by simp at hast
  | ast₀ :: rest, toBook, cancelled, trace => fun hok ast hast hvalid hprov => by
    cases hca : collectAsset o ast₀ toBook cancelled with
    | err =>
      have heq : collectLoop o (ast₀ :: rest) toBook cancelled trace
          = (trace, LoopOutcome.aborted) := by
        simp only [collectLoop, hca]
      rw [heq] at hok
      cases hok
    | crash =>
      have heq : collectLoop o (ast₀ :: rest) toBook cancelled trace
          = (trace, LoopOutcome.panicked) := by
        simp only [collectLoop, hca]
      rw [heq] at hok
      cases hok
    | ok res =>
      have heq : collectLoop o (ast₀ :: rest) toBook cancelled trace
          = collectLoop o rest res.1 res.2.1 (trace ++ persistEvents res.2.2) := by
        simp only [collectLoop, hca]
      rw [heq] at hok ⊢
      rcases List.mem_cons.mp hast with h | h
      · subst h
        obtain ⟨t, c, p⟩ := res
        obtain ⟨st, out, hst, hsc, hp⟩ :=
          collectAsset_persist o ast toBook cancelled t c p hca hvalid hprov
        refine ⟨st, out, hst, hsc, ?_⟩
        refine collectLoop_trace_mono o rest t c
          (trace ++ persistEvents p) _ ?_
        subst hp
        simp [persistEvents]
      · exact collectLoop_persists o rest res.1 res.2.1
          (trace ++ persistEvents res.2.2) hok ast h hvalid hprov

/-- C6: in every collection pass, each asset's new sync cookie is
persisted before any downstream push (Book or CancelSlice) is
attempted: every persist event strictly precedes every push event in
the pass's effect trace; on a completed pass each synced asset's
cookie from its syncFolderItems call is in the trace; pushes are
attempted exactly when the loop completed; and the push outcomes
(logged only) influence neither the trace, the outcome, nor the
persisted cookies. -/
theorem C6_cookie_persisted_before_push (o : CollectOracles)
    (assets : List CollectAsset) (bookOK cancelSliceOK : Bool) :
    (∀ i j evI evJ,
      (collectResources o assets bookOK cancelSliceOK).1.get? i = some evI →
      (collectResources o assets bookOK cancelSliceOK).1.get? j = some evJ →
      isPersistEvent evI = true → isPushEvent evJ = true → i < j)
    ∧ ((collectResources o assets bookOK cancelSliceOK).2 = LoopOutcome.ok →
        ∀ ast ∈ assets, ast.assetIDValid = true → ast.providerID ≠ "" →
          ∃ st out, o.getSyncState ast.id = some st
            ∧ o.syncCall ast.providerID st = some out
            ∧ CollectEvent.persistCookie ast.id out.newSyncState
                ∈ (collectResources o assets bookOK cancelSliceOK).1)
    ∧ ((collectResources o assets bookOK cancelSliceOK).2 = LoopOutcome.ok →
        CollectEvent.pushBook
            ∈ (collectResources o assets bookOK cancelSliceOK).1
          ∧ CollectEvent.pushCancelSlice
            ∈ (collectResources o assets bookOK cancelSliceOK).1)
    ∧ ((collectResources o assets bookOK cancelSliceOK).2 ≠ LoopOutcome.ok →
        ∀ ev ∈ (collectResources o assets bookOK cancelSliceOK).1,
          isPushEvent ev = false)
    ∧ (∀ b₁ c₁ b₂ c₂ : Bool,
        collectResources o assets b₁ c₁ = collectResources o assets b₂ c₂) := by
  have hnp := collectLoop_no_push o assets [] [] []
    (by intro ev h; simp at h)
  have hper := collectLoop_persists o assets [] [] []
  rcases hL : collectLoop o assets [] [] [] with ⟨ltrace, lout⟩
  rw [hL] at hnp hper
  simp only at hnp hper
  cases lout with
  | ok =>
    have hres : ∀ b c : Bool, collectResources o assets b c
        = (ltrace ++ [CollectEvent.pushBook, CollectEvent.pushCancelSlice],
            LoopOutcome.ok) := by
      intro b c
      unfold collectResources
      rw [hL]
    refine ⟨?_, ?_, ?_, ?_, fun _ _ _ _ => by rw [hres, hres]⟩
    · intro i j evI evJ hi hj hPer hPush
      rw [hres] at hi hj
      by_cases hilen : i < ltrace.length
      · by_cases hjlen : j < ltrace.length
        · exfalso
          rw [List.get?_append hjlen] at hj
          have := hnp evJ (List.get?_mem hj)
          rw [hPush] at this
          cases this
        · omega
      · exfalso
        rw [List.get?_append_right (le_of_not_lt hilen)] at hi
        have hmem := List.get?_mem hi
        rcases List.mem_cons.mp hmem with h | h
        · rw [h] at hPer; cases hPer
        · simp only [List.mem_singleton] at h
          rw [h] at hPer; cases hPer
    · intro _ ast hast hvalid hprov
      obtain ⟨st, out, h1, h2, h3⟩ := hper rfl ast hast hvalid hprov
      refine ⟨st, out, h1, h2, ?_⟩
      rw [hres]
      exact List.mem_append.mpr (Or.inl h3)
    · intro _
      rw [hres]
      constructor
      · simp
      · simp
    · intro hne
      exfalso
      exact hne (by rw [hres])
  | aborted =>
    have hres : ∀ b c : Bool, collectResources o assets b c
        = (ltrace, LoopOutcome.aborted) := by
      intro b c
      unfold collectResources
      rw [hL]
    refine ⟨?_, ?_, ?_, ?_, fun _ _ _ _ => by rw [hres, hres]⟩
    · intro i j evI evJ hi hj hPer hPush
      exfalso
      rw [hres] at hj
      have := hnp evJ (List.get?_mem hj)
      rw [hPush] at this
      cases this
    · intro habs
      rw [hres] at habs
      cases habs
    · intro habs
      rw [hres] at habs
      cases habs
    · intro _ ev hev
      rw [hres] at hev
      exact hnp ev hev
  | panicked =>
    have hres : ∀ b c : Bool, collectResources o assets b c
        = (ltrace, LoopOutcome.panicked) := by
      intro b c
      unfold collectResources
      rw [hL]
    refine ⟨?_, ?_, ?_, ?_, fun _ _ _ _ => by rw [hres, hres]⟩
    · intro i j evI evJ hi hj hPer hPush
      exfalso
      rw [hres] at hj
      have := hnp evJ (List.get?_mem hj)
      rw [hPush] at this
      cases this
    · intro habs
      rw [hres] at habs
      cases habs
    · intro habs
      rw [hres] at habs
      cases habs
    · intro _ ev hev
      rw [hres] at hev
      exact hnp ev hev

/-- The sync outcome the C6 witness server always returns. -/
def outC6 : SyncCallOut :=
  { newGroups := [], updatedGroups := [], cancelled := [],
    newSyncState := "new1" }

/-- Oracles for the C6 witness: one healthy asset whose sync returns
the fresh cookie "new1". -/
def oC6 : CollectOracles :=
  { getSyncState := fun _ => some "old"
    syncCall := fun _ _ => some outC6
    assign := fun g => some g
    cancelLookup := fun _ => CancelLookup.notFound
    persistOK := fun _ => true }

def astC6 : CollectAsset :=
  { id := 42, assetIDValid := true, assetID := 9, providerID := "roomz@x" }

/-- Witness for C6 on one healthy asset: the persist event (index 0)
precedes the Book push (index 1), the persisted cookie is the one the
sync call returned, and both pushes are attempted. -/
theorem C6_cookie_persisted_before_push_witness :
    (0 : Nat) < 1
    ∧ (∃ st out, oC6.getSyncState 42 = some st
        ∧ oC6.syncCall "roomz@x" st = some out
        ∧ CollectEvent.persistCookie 42 out.newSyncState
            ∈ (collectResources oC6 [astC6] true false).1)
    ∧ CollectEvent.pushBook ∈ (collectResources oC6 [astC6] true false).1 := by
  have h := C6_cookie_persisted_before_push oC6 [astC6] true false
  refine ⟨?_, ?_, ?_⟩
  · exact h.1 0 1 (CollectEvent.persistCookie 42 "new1")
      CollectEvent.pushBook (by decide) (by decide) (by decide) (by decide)
  · exact h.2.1 (by decide) astC6 (by decide) (by decide) (by decide)
  · exact (h.2.2.1 (by decide)).1

end EwsApp
